import Mathlib

/-!
Verification development for the Fragments microservice: a shallow embedding
of the fragment data model (src/model/fragment.js), the in-memory storage
backend (src/model/data/memory), and the HTTP route handlers for
POST /fragments, GET /fragments/:id, PUT /fragments/:id and
DELETE /fragments/:id, together with theorems checking the specified
behaviour against this embedding.

Bytes are modelled as lists of naturals (byte values 0..255); Node string
decoding/encoding (Buffer.toString('utf8') / Buffer.from(s,'utf8')) is
modelled by an explicit WHATWG-style UTF-8 codec.
-/

namespace Fragments

/-- Raw content bytes, as stored in a Node Buffer. -/
abbrev Bytes := List Nat

/-! ### UTF-8 codec

Model of Node's Buffer UTF-8 conversions. Buffer.from(s, 'utf8') encodes
each Unicode scalar value; buf.toString('utf8') decodes following the
WHATWG rules: malformed sequences produce U+FFFD and decoding resumes at
the byte that broke the sequence. -/

/-- UTF-8 encoding of a single Unicode code point (the scalar value as Nat). -/
def encodeCp (n : Nat) : List Nat :=
  if n < 0x80 then [n]
  else if n < 0x800 then [0xC0 + n / 64, 0x80 + n % 64]
  else if n < 0x10000 then
    [0xE0 + n / 4096, 0x80 + (n / 64) % 64, 0x80 + n % 64]
  else
    [0xF0 + n / 262144, 0x80 + (n / 4096) % 64, 0x80 + (n / 64) % 64, 0x80 + n % 64]

/-- UTF-8 encoding of a list of characters. -/
def utf8EncodeChars (cs : List Char) : Bytes :=
  (cs.map (fun c => encodeCp c.toNat)).flatten

/-- UTF-8 encoding of a string (Buffer.from(s, 'utf8')). -/
def utf8Encode (s : String) : Bytes :=
  utf8EncodeChars s.data

/-- The replacement character U+FFFD emitted for malformed input. -/
def repl : Char := Char.ofNat 0xFFFD

/-- Lower bound for the first continuation byte after lead byte b
(WHATWG: E0 requires A0.., F0 requires 90..). -/
def contLo (b : Nat) : Nat :=
  if b = 0xE0 then 0xA0 else if b = 0xF0 then 0x90 else 0x80

/-- Exclusive upper bound for the first continuation byte after lead byte b
(WHATWG: ED allows ..9F, F4 allows ..8F). -/
def contHi (b : Nat) : Nat :=
  if b = 0xED then 0xA0 else if b = 0xF4 then 0x90 else 0xC0

/-- WHATWG UTF-8 decoding (Node buf.toString('utf8')): malformed sequences
yield U+FFFD and decoding resumes at the offending byte. The fuel argument
only bounds the recursion (each decoded character consumes one unit);
utf8Decode below supplies the list length, which always suffices. -/
def utf8DecodeGo : Nat → List Nat → List Char
  | 0, _ => []
  | _, [] => []
  | fuel + 1, b :: bs =>
    if b < 0x80 then Char.ofNat b :: utf8DecodeGo fuel bs
    else if b < 0xC2 then repl :: utf8DecodeGo fuel bs
    else if b < 0xE0 then
      match bs with
      | [] => [repl]
      | b2 :: bs2 =>
        if 0x80 ≤ b2 ∧ b2 < 0xC0 then
          Char.ofNat ((b - 0xC0) * 64 + (b2 - 0x80)) :: utf8DecodeGo fuel bs2
        else repl :: utf8DecodeGo fuel bs
    else if b < 0xF0 then
      match bs with
      | [] => [repl]
      | b2 :: bs2 =>
        if contLo b ≤ b2 ∧ b2 < contHi b then
          match bs2 with
          | [] => [repl]
          | b3 :: bs3 =>
            if 0x80 ≤ b3 ∧ b3 < 0xC0 then
              Char.ofNat ((b - 0xE0) * 4096 + (b2 - 0x80) * 64 + (b3 - 0x80)) ::
                utf8DecodeGo fuel bs3
            else repl :: utf8DecodeGo fuel bs2
        else repl :: utf8DecodeGo fuel bs
    else if b < 0xF5 then
      match bs with
      | [] => [repl]
      | b2 :: bs2 =>
        if contLo b ≤ b2 ∧ b2 < contHi b then
          match bs2 with
          | [] => [repl]
          | b3 :: bs3 =>
            if 0x80 ≤ b3 ∧ b3 < 0xC0 then
              match bs3 with
              | [] => [repl]
              | b4 :: bs4 =>
                if 0x80 ≤ b4 ∧ b4 < 0xC0 then
                  Char.ofNat ((b - 0xF0) * 262144 + (b2 - 0x80) * 4096 +
                      (b3 - 0x80) * 64 + (b4 - 0x80)) :: utf8DecodeGo fuel bs4
                else repl :: utf8DecodeGo fuel bs3
            else repl :: utf8DecodeGo fuel bs2
        else repl :: utf8DecodeGo fuel bs
    else repl :: utf8DecodeGo fuel bs

/-- UTF-8 decoding of a byte list. -/
def utf8Decode (l : List Nat) : List Char :=
  utf8DecodeGo l.length l

/-- Node buf.toString('utf8') as a String. -/
def utf8DecodeStr (bs : Bytes) : String :=
  String.mk (utf8Decode bs)

theorem valid_toNat (c : Char) :
    c.toNat < 0xD800 ∨ (0xDFFF < c.toNat ∧ c.toNat < 0x110000) := by
  have h := c.valid
  rcases h with h | ⟨h1, h2⟩
  · exact Or.inl h
  · exact Or.inr ⟨h1, h2⟩

theorem utf8DecodeGo_nil (f : Nat) : utf8DecodeGo f [] = [] := by
  cases f <;> rfl

theorem utf8DecodeGo_encodeCp (f : Nat) (c : Char) (rest : List Nat) :
    utf8DecodeGo (f + 1) (encodeCp c.toNat ++ rest) = c :: utf8DecodeGo f rest := by
  have hv := valid_toNat c
  have hofnat : Char.ofNat c.toNat = c := Char.ofNat_toNat c
  set n := c.toNat with hn
  by_cases h1 : n < 0x80
  · rw [encodeCp, if_pos h1]
    rw [List.cons_append, List.nil_append, utf8DecodeGo.eq_def]
    simp only [if_pos h1, hofnat]
  · by_cases h2 : n < 0x800
    · rw [encodeCp, if_neg h1, if_pos h2]
      rw [List.cons_append, List.cons_append, List.nil_append, utf8DecodeGo.eq_def]
      have c1 : ¬ (0xC0 + n / 64 < 0x80) := by omega
      have c2 : ¬ (0xC0 + n / 64 < 0xC2) := by omega
      have c3 : 0xC0 + n / 64 < 0xE0 := by omega
      have c4 : 0x80 ≤ 0x80 + n % 64 ∧ 0x80 + n % 64 < 0xC0 := by omega
      simp only [if_neg c1, if_neg c2, if_pos c3, if_pos c4]
      have he : (0xC0 + n / 64 - 0xC0) * 64 + (0x80 + n % 64 - 0x80) = n := by omega
      rw [he, hofnat]
    · by_cases h3 : n < 0x10000
      · rw [encodeCp, if_neg h1, if_neg h2, if_pos h3]
        rw [List.cons_append, List.cons_append, List.cons_append, List.nil_append,
          utf8DecodeGo.eq_def]
        have c1 : ¬ (0xE0 + n / 4096 < 0x80) := by omega
        have c2 : ¬ (0xE0 + n / 4096 < 0xC2) := by omega
        have c3 : ¬ (0xE0 + n / 4096 < 0xE0) := by omega
        have c4 : 0xE0 + n / 4096 < 0xF0 := by omega
        have c5 : contLo (0xE0 + n / 4096) ≤ 0x80 + n / 64 % 64 ∧
            0x80 + n / 64 % 64 < contHi (0xE0 + n / 4096) := by
          constructor
          · rw [contLo]
            split
            · next hne => omega
            · split
              · next hne => omega
              · omega
          · rw [contHi]
            split
            · next hne => rcases hv with hv | hv <;> omega
            · split
              · next hne => omega
              · omega
        have c6 : 0x80 ≤ 0x80 + n % 64 ∧ 0x80 + n % 64 < 0xC0 := by omega
        simp only [if_neg c1, if_neg c2, if_neg c3, if_pos c4, if_pos c5, if_pos c6]
        have he : (0xE0 + n / 4096 - 0xE0) * 4096 + (0x80 + n / 64 % 64 - 0x80) * 64 +
            (0x80 + n % 64 - 0x80) = n := by omega
        rw [he, hofnat]
      · rw [encodeCp, if_neg h1, if_neg h2, if_neg h3]
        rw [List.cons_append, List.cons_append, List.cons_append, List.cons_append,
          List.nil_append, utf8DecodeGo.eq_def]
        have hub : n < 0x110000 := by rcases hv with hv | hv <;> omega
        have c1 : ¬ (0xF0 + n / 262144 < 0x80) := by omega
        have c2 : ¬ (0xF0 + n / 262144 < 0xC2) := by omega
        have c3 : ¬ (0xF0 + n / 262144 < 0xE0) := by omega
        have c4 : ¬ (0xF0 + n / 262144 < 0xF0) := by omega
        have c5 : 0xF0 + n / 262144 < 0xF5 := by omega
        have c6 : contLo (0xF0 + n / 262144) ≤ 0x80 + n / 4096 % 64 ∧
            0x80 + n / 4096 % 64 < contHi (0xF0 + n / 262144) := by
          constructor
          · rw [contLo]
            split
            · next hne => omega
            · split
              · next hne => omega
              · omega
          · rw [contHi]
            split
            · next hne => omega
            · split
              · next hne => omega
              · omega
        have c7 : 0x80 ≤ 0x80 + n / 64 % 64 ∧ 0x80 + n / 64 % 64 < 0xC0 := by omega
        have c8 : 0x80 ≤ 0x80 + n % 64 ∧ 0x80 + n % 64 < 0xC0 := by omega
        simp only [if_neg c1, if_neg c2, if_neg c3, if_neg c4, if_pos c5, if_pos c6,
          if_pos c7, if_pos c8]
        have he : (0xF0 + n / 262144 - 0xF0) * 262144 + (0x80 + n / 4096 % 64 - 0x80) * 4096 +
            (0x80 + n / 64 % 64 - 0x80) * 64 + (0x80 + n % 64 - 0x80) = n := by omega
        rw [he, hofnat]

theorem encodeCp_length_pos (n : Nat) : 1 ≤ (encodeCp n).length := by
  rw [encodeCp]
  split
  · simp
  · split
    · simp
    · split <;> simp

theorem length_le_utf8EncodeChars (cs : List Char) :
    cs.length ≤ (utf8EncodeChars cs).length := by
  induction cs with
  | nil => simp [utf8EncodeChars]
  | cons c cs ih =>
    rw [utf8EncodeChars, List.map_cons, List.flatten_cons, List.length_append,
      List.length_cons]
    have := encodeCp_length_pos c.toNat
    rw [utf8EncodeChars] at ih
    omega

theorem utf8DecodeGo_encodeChars (cs : List Char) (f : Nat) (h : cs.length ≤ f) :
    utf8DecodeGo f (utf8EncodeChars cs) = cs := by
  induction cs generalizing f with
  | nil => simpa [utf8EncodeChars] using utf8DecodeGo_nil f
  | cons c cs ih =>
    cases f with
    | zero => simp at h
    | succ f =>
      rw [utf8EncodeChars, List.map_cons, List.flatten_cons]
      rw [show (List.map (fun c => encodeCp c.toNat) cs).flatten = utf8EncodeChars cs
        from rfl]
      rw [utf8DecodeGo_encodeCp]
      rw [ih f (by simp at h; omega)]

/-- Decoding an encoded character list gives the characters back. -/
theorem utf8Decode_utf8EncodeChars (cs : List Char) :
    utf8Decode (utf8EncodeChars cs) = cs :=
  utf8DecodeGo_encodeChars cs (utf8EncodeChars cs).length (length_le_utf8EncodeChars cs)

/-- Decoding an encoded string gives the string back. -/
theorem utf8DecodeStr_utf8Encode (s : String) : utf8DecodeStr (utf8Encode s) = s := by
  rw [utf8DecodeStr, utf8Encode, utf8Decode_utf8EncodeChars]

/-! ### Content-Type parsing

Model of the content-type npm package used by src/model/fragment.js and the
route handlers: contentType.parse(header) takes the media type before the
first ';', trims it, validates it as token/token, lowercases it, and throws
(here: none) on anything malformed. -/

/-- JS whitespace recognized by String.prototype.trim. -/
def isJsWs (c : Char) : Bool :=
  c.toNat = 32 || c.toNat = 9 || c.toNat = 10 || c.toNat = 11 ||
    c.toNat = 12 || c.toNat = 13 || c.toNat = 160 || c.toNat = 0xFEFF

/-- Strip leading and trailing JS whitespace from a character list. -/
def trimWs (cs : List Char) : List Char :=
  ((cs.dropWhile isJsWs).reverse.dropWhile isJsWs).reverse

/-- JS String.prototype.trim. -/
def jsTrim (s : String) : String :=
  String.mk (trimWs s.data)

/-- ASCII lowering of one character, covering the alphabet of media types
and extensions that toLowerCase is applied to. -/
def lowerChar (c : Char) : Char :=
  if 65 ≤ c.toNat ∧ c.toNat ≤ 90 then Char.ofNat (c.toNat + 32) else c

/-- String.prototype.toLowerCase over that alphabet. -/
def lowerStr (s : String) : String :=
  String.mk (s.data.map lowerChar)

/-- String.prototype.split with a one-character separator: every occurrence
separates, empty pieces are kept. -/
def splitOnChar (sep : Char) : List Char → List (List Char)
  | [] => [[]]
  | c :: rest =>
    if c = sep then [] :: splitOnChar sep rest
    else
      match splitOnChar sep rest with
      | [] => [[c]]
      | g :: gs => (c :: g) :: gs

/-- JS s.split(sep) for a one-character separator. -/
def jsSplit (s : String) (sep : Char) : List String :=
  (splitOnChar sep s.data).map String.mk

/-- RFC 7230 token characters accepted in a media type by the content-type
package (codes 39 and 96 are the apostrophe and the backquote). -/
def isTokenChar (c : Char) : Bool :=
  c.isAlphanum || c = '!' || c = '#' || c = '$' || c = '%' || c = '&' ||
    c = '*' || c = '+' || c = '.' || c = '^' || c = '_' || c = '|' || c = '~' ||
    c = '-' || c.toNat = 39 || c.toNat = 96

/-- Is s a syntactically valid media type (token "/" token)? -/
def validMediaType (s : String) : Bool :=
  match jsSplit s '/' with
  | [a, b] => !a.isEmpty && !b.isEmpty && a.data.all isTokenChar && b.data.all isTokenChar
  | _ => false

/-- contentType.parse(header).type: the part before the first ';', trimmed
and lowercased; none when that media type is malformed (the package throws). -/
def parseContentType (s : String) : Option String :=
  let t := String.mk (trimWs (s.data.takeWhile (fun c => c ≠ ';')))
  if validMediaType t then some (lowerStr t) else none

/-! ### Fragment entity (src/model/fragment.js) -/

/-- The closed supported-type registry of Fragment.isSupportedType. -/
def supportedTypes : List String :=
  ["text/plain", "text/markdown", "text/html", "text/csv",
   "application/json", "application/yaml",
   "image/png", "image/jpeg", "image/webp", "image/gif"]

/-- Fragment.isSupportedType: parse the Content-Type value and check the
base type against the registry; a parse failure returns false. -/
def isSupportedType (value : String) : Bool :=
  match parseContentType value with
  | some t => supportedTypes.contains t
  | none => false

/-- A stored fragment record. size is an Int mirroring the JS number field. -/
structure Fragment where
  id : String
  ownerId : String
  type : String
  size : Int
  created : String
  updated : String
deriving DecidableEq

/-- Fragment#mimeType: contentType.parse(this.type).type. Construction
validates the type, so the parse never fails on stored records; a malformed
type defaults to "" here. -/
def mimeTypeOf (type : String) : String :=
  (parseContentType type).getD ""

/-- Fragment#isText: mimeType starts with text/. -/
def isTextFragment (type : String) : Bool :=
  (mimeTypeOf type).startsWith "text/"

/-- Errors thrown by the Fragment constructor (spec taxonomy:
ValidationError and UnsupportedType). -/
inductive FragmentError
  | validationError (msg : String)
  | unsupportedType (t : String)
deriving DecidableEq

/-- A JS value passed as the size argument: a number or something else. -/
inductive JsSize
  | num (n : Int)
  | nonNumber
deriving DecidableEq

/-- The argument object of new Fragment({...}); absent fields are none.
size defaults to 0 via the destructuring default. -/
structure FragmentArgs where
  id : Option String := none
  ownerId : Option String := none
  created : Option String := none
  updated : Option String := none
  type : Option String := none
  size : Option JsSize := none

/-- JS falsiness of an optional string: undefined or the empty string. -/
def falsyS : Option String → Bool
  | none => true
  | some s => s.isEmpty

/-- The Fragment constructor. genId stands for crypto.randomUUID() and now
for new Date().toISOString(), both supplied by the environment. -/
def fragmentNew (a : FragmentArgs) (genId now : String) :
    Except FragmentError Fragment :=
  if falsyS a.ownerId then .error (.validationError "ownerId is required")
  else if falsyS a.type then .error (.validationError "type is required")
  else if ¬ isSupportedType (a.type.getD "") then
    .error (.unsupportedType (a.type.getD ""))
  else
    match a.size.getD (.num 0) with
    | .nonNumber => .error (.validationError "size must be a number")
    | .num n =>
      if n < 0 then .error (.validationError "size cannot be negative")
      else .ok
        { id := if falsyS a.id then genId else a.id.getD ""
          ownerId := a.ownerId.getD ""
          type := a.type.getD ""
          size := n
          created := if falsyS a.created then now else a.created.getD ""
          updated := if falsyS a.updated then now else a.updated.getD "" }

/-! ### JSON values and JSON.stringify

Structured data produced by the external parsers (JSON.parse, js-yaml load)
and consumed by the converters. Numbers are modelled as integers, which
covers every value the repository's conversions and tests exercise. -/

inductive Json
  | null
  | bool (b : Bool)
  | num (n : Int)
  | str (s : String)
  | arr (xs : List Json)
  | obj (fields : List (String × Json))

/-- Two spaces per indentation level (JSON.stringify(v, null, 2)). -/
def pad (ind : Nat) : String :=
  String.join (List.replicate ind "  ")

/-- JSON string escaping as done by JSON.stringify. -/
def jsonEscapeChar (c : Char) : String :=
  if c = Char.ofNat 34 then "\\\""
  else if c = Char.ofNat 92 then "\\\\"
  else if c = Char.ofNat 10 then "\\n"
  else if c = Char.ofNat 13 then "\\r"
  else if c = Char.ofNat 9 then "\\t"
  else if c.toNat < 0x20 then
    "\\u00" ++ String.mk [Char.ofNat (hexDigit (c.toNat / 16)), Char.ofNat (hexDigit (c.toNat % 16))]
  else String.mk [c]
where
  hexDigit (n : Nat) : Nat := if n < 10 then 48 + n else 87 + n

/-- A JSON string literal with quotes and escapes. -/
def jsonQuote (s : String) : String :=
  "\"" ++ String.join (s.data.map jsonEscapeChar) ++ "\""

mutual

/-- JSON.stringify(v, null, 2) at nesting depth ind. -/
def jsonStringify (ind : Nat) : Json → String
  | .null => "null"
  | .bool true => "true"
  | .bool false => "false"
  | .num n => toString n
  | .str s => jsonQuote s
  | .arr [] => "[]"
  | .arr (x :: xs) => "[\n" ++ jsonItems (ind + 1) (x :: xs) ++ "\n" ++ pad ind ++ "]"
  | .obj [] => "\x7b\x7d"
  | .obj (f :: fs) => "\x7b\n" ++ jsonFields (ind + 1) (f :: fs) ++ "\n" ++ pad ind ++ "\x7d"

/-- Comma-and-newline separated array elements, each on an indented line. -/
def jsonItems (ind : Nat) : List Json → String
  | [] => ""
  | [x] => pad ind ++ jsonStringify ind x
  | x :: y :: xs => pad ind ++ jsonStringify ind x ++ ",\n" ++ jsonItems ind (y :: xs)

/-- Comma-and-newline separated object entries, each on an indented line. -/
def jsonFields (ind : Nat) : List (String × Json) → String
  | [] => ""
  | [(k, v)] => pad ind ++ jsonQuote k ++ ": " ++ jsonStringify ind v
  | (k, v) :: f :: fs =>
    pad ind ++ jsonQuote k ++ ": " ++ jsonStringify ind v ++ ",\n" ++ jsonFields ind (f :: fs)

end

/-! ### JS value helpers used by the converters -/

/-- JS falsiness of a defined value (undefined is handled as Option.none at
call sites). -/
def jsFalsy : Json → Bool
  | .null => true
  | .bool b => !b
  | .num n => n = 0
  | .str s => s.isEmpty
  | _ => false

mutual

/-- JS String(value) coercion for the values the converters meet. -/
def jsToString : Json → String
  | .null => "null"
  | .bool true => "true"
  | .bool false => "false"
  | .num n => toString n
  | .str s => s
  | .arr xs => jsArrToString xs
  | .obj _ => "[object Object]"

/-- Array.prototype.toString: elements joined by commas. -/
def jsArrToString : List Json → String
  | [] => ""
  | [x] => jsItemToString x
  | x :: y :: xs => jsItemToString x ++ "," ++ jsArrToString (y :: xs)

/-- A null element stringifies to the empty string inside a joined array. -/
def jsItemToString : Json → String
  | .null => ""
  | v => jsToString v

end

/-- Object.keys(v): none models the TypeError thrown on null. -/
def jsObjectKeys : Json → Option (List String)
  | .null => none
  | .bool _ => some []
  | .num _ => some []
  | .str s => some ((List.range s.length).map toString)
  | .arr xs => some ((List.range xs.length).map toString)
  | .obj fs => some (fs.foldl (fun acc kv => if acc.contains kv.1 then acc else acc ++ [kv.1]) [])

/-- JS property read v[key], including canonical numeric indexing of arrays
and strings; none models undefined. -/
def jsGet (o : Json) (key : String) : Option Json :=
  match o with
  | .obj fs => (fs.find? (fun p => p.1 = key)).map (fun p => p.2)
  | .arr xs =>
    match key.toNat? with
    | some i => if toString i = key then xs.get? i else none
    | none => none
  | .str s =>
    match key.toNat? with
    | some i =>
      if toString i = key ∧ i < s.length then some (.str (String.mk [s.data.getD i ' ']))
      else none
    | none => none
  | _ => none

/-- String(obj[header] || ''): undefined and falsy values render as the
empty string. -/
def jsGetForCsv (o : Json) (h : String) : String :=
  match jsGet o h with
  | none => ""
  | some v => if jsFalsy v then "" else jsToString v

/-! ### Conversion engine (GET /fragments/:id handler module) -/

/-- The extension table of the GET /fragments/:id handler. -/
def extensionToMimeType : List (String × String) :=
  [(".txt", "text/plain"), (".md", "text/markdown"), (".html", "text/html"),
   (".json", "application/json"), (".csv", "text/csv"), (".yaml", "application/yaml"),
   (".yml", "application/yaml"), (".png", "image/png"), (".jpg", "image/jpeg"),
   (".jpeg", "image/jpeg"), (".webp", "image/webp"), (".gif", "image/gif"),
   (".avif", "image/avif")]

/-- extensionToMimeType lookup at '.' ++ extension.toLowerCase(). -/
def extLookup (e : String) : Option String :=
  (extensionToMimeType.find? (fun p => p.1 = "." ++ lowerStr e)).map (fun p => p.2)

/-- The text family of isConversionSupported. -/
def textTypes : List String :=
  ["text/plain", "text/markdown", "text/html", "text/csv",
   "application/json", "application/yaml"]

/-- The image family of isConversionSupported. -/
def imageTypes : List String :=
  ["image/png", "image/jpeg", "image/webp", "image/gif"]

/-- isConversionSupported: same type, text-to-text, or image-to-image. -/
def isConversionSupported (sourceType targetType : String) : Bool :=
  if sourceType = targetType then true
  else
    let sourceIsText := textTypes.contains sourceType
    let sourceIsImage := imageTypes.contains sourceType
    let targetIsText := textTypes.contains targetType
    let targetIsImage := imageTypes.contains targetType
    if sourceIsText && targetIsText then true
    else if sourceIsImage && targetIsImage then true
    else false

/-- External libraries used by the handlers, supplied as parameters of the
model: JSON.parse and js-yaml load (none = the parse threw), markdown-it
render, and the sharp image pipeline (none = decode/encode failed). -/
structure ExtLibs where
  jsonParse : String → Option Json
  yamlLoad : String → Option Json
  mdRender : String → String
  imageConvert : Bytes → String → Option Bytes

/-- value.replace(/"/g, '\\"') in formatYamlValue. -/
def yamlEscapeQuotes (s : String) : String :=
  String.join (s.data.map (fun c => if c = Char.ofNat 34 then "\\\"" else String.mk [c]))

mutual

/-- convertJsonToYaml(obj, indent): the handler's hand-rolled YAML writer. -/
def convertJsonToYaml (j : Json) (indent : Nat) : String :=
  match j with
  | .arr items => yamlArrItems items indent
  | .obj fs => yamlObjFields fs indent
  | v => pad indent ++ formatYamlValue v indent ++ "\n"

/-- The forEach over a YAML array's items. -/
def yamlArrItems (items : List Json) (indent : Nat) : String :=
  match items with
  | [] => ""
  | item :: rest =>
    (match item with
     | .obj fs => pad indent ++ "- " ++ yamlItemFieldsObj fs true indent
     | .arr xs => pad indent ++ "- " ++ yamlItemFieldsArr xs 0 indent
     | v => pad indent ++ "- " ++ formatYamlValue v indent ++ "\n")
    ++ yamlArrItems rest indent

/-- Keys of an object item inside an array: the first key sits on the "- "
line, later keys are indented two extra spaces. -/
def yamlItemFieldsObj (fs : List (String × Json)) (first : Bool) (indent : Nat) : String :=
  match fs with
  | [] => ""
  | (k, v) :: rest =>
    (if first then k ++ ": " ++ formatYamlValue v (indent + 1) ++ "\n"
     else pad indent ++ "  " ++ k ++ ": " ++ formatYamlValue v (indent + 1) ++ "\n")
    ++ yamlItemFieldsObj rest false indent

/-- An array item that is itself an array is treated like an object whose
keys are the element indices (Object.keys of a JS array). -/
def yamlItemFieldsArr (xs : List Json) (i : Nat) (indent : Nat) : String :=
  match xs with
  | [] => ""
  | v :: rest =>
    (if i = 0 then toString i ++ ": " ++ formatYamlValue v (indent + 1) ++ "\n"
     else pad indent ++ "  " ++ toString i ++ ": " ++ formatYamlValue v (indent + 1) ++ "\n")
    ++ yamlItemFieldsArr rest (i + 1) indent

/-- Keys of a top-level (non-array) object. -/
def yamlObjFields (fs : List (String × Json)) (indent : Nat) : String :=
  match fs with
  | [] => ""
  | (k, v) :: rest =>
    pad indent ++ k ++ ": " ++ formatYamlValue v indent ++ "\n" ++ yamlObjFields rest indent

/-- formatYamlValue(value, indent). For nested objects and arrays the source
emits a newline followed by convertJsonToYaml(value, indent+1); that call is
unfolded one step here (into the matching field/item writer) so that the
recursion is structural. -/
def formatYamlValue (v : Json) (indent : Nat) : String :=
  match v with
  | .null => "null"
  | .str s =>
    if s.data.contains (Char.ofNat 10) || s.data.contains ':' || s.data.contains '#' then
      "\"" ++ yamlEscapeQuotes s ++ "\""
    else s
  | .obj fs => "\n" ++ yamlObjFields fs (indent + 1)
  | .arr xs => "\n" ++ yamlArrItems xs (indent + 1)
  | .num n => toString n
  | .bool true => "true"
  | .bool false => "false"

end

/-- obj[header] = value on a JS object under construction (insertion order,
later assignment to the same key overwrites in place). -/
def jsObjSet (fs : List (String × Json)) (k : String) (v : Json) : List (String × Json) :=
  if fs.any (fun p => p.1 = k) then fs.map (fun p => if p.1 = k then (k, v) else p)
  else fs ++ [(k, v)]

/-- One CSV data row turned into an object keyed by the headers
(headers.forEach((header, i) => obj[header] = values[i] || '')). -/
def csvRowObj (headers values : List String) : List (String × Json) :=
  headers.enum.foldl (fun acc p => jsObjSet acc p.2 (Json.str (values.getD p.1 ""))) []

/-- The rows array of the CSV → JSON branch: first non-blank line is the
header row, each later non-blank line becomes an object. -/
def csvRows (text : String) : List Json :=
  let lines := (jsSplit text (Char.ofNat 10)).filter (fun l => !(jsTrim l).isEmpty)
  match lines with
  | [] => []
  | first :: rest =>
    let headers := (jsSplit first ',').map jsTrim
    rest.map (fun line =>
      let values := (jsSplit line ',').map jsTrim
      Json.obj (csvRowObj headers values))

/-- The CSV → JSON branch of convertTextToText. -/
def convertCsvToJson (text : String) : String :=
  let lines := (jsSplit text (Char.ofNat 10)).filter (fun l => !(jsTrim l).isEmpty)
  if lines.isEmpty then "[]"
  else jsonStringify 0 (Json.arr (csvRows text))

/-- The JSON → CSV branch of convertTextToText, applied to the parsed JSON
value: a non-array input is wrapped in a one-element array; headers come
from the first element's keys; Object.keys(null) throws, which the branch
rethrows as invalid JSON. -/
def convertJsonToCsv (j : Json) : Except String Bytes :=
  let array := match j with | .arr xs => xs | v => [v]
  match array with
  | [] => .ok []
  | first :: _ =>
    match jsObjectKeys first with
    | none => .error "Invalid JSON: Cannot convert undefined or null to object"
    | some headers =>
      let csvLines := (String.intercalate "," headers) ::
        array.map (fun o => String.intercalate "," (headers.map (fun h => jsGetForCsv o h)))
      .ok (utf8Encode (String.intercalate "\n" csvLines))

/-- text.replace(/<[^>]*>/g, ''): drop every '<'...'>' run; a '<' with no
later '>' is kept verbatim. -/
def stripHtmlTags : List Char → List Char
  | [] => []
  | c :: rest =>
    if c = '<' then
      match h : rest.dropWhile (fun x => x ≠ Char.ofNat 62) with
      | _ :: rest2 => stripHtmlTags rest2
      | [] => c :: stripHtmlTags rest
    else c :: stripHtmlTags rest
termination_by l => l.length
decreasing_by
  · have hle : (rest.dropWhile (fun x => x ≠ Char.ofNat 62)).length ≤ rest.length :=
      (List.dropWhile_sublist _).length_le
    rw [h] at hle
    simp at hle ⊢
    omega
  · simp
  · simp

/-- convertTextToText(data, sourceType, targetType). The source first takes
text = data.toString('utf8'); every branch then works on that text. -/
def convertTextToText (libs : ExtLibs) (data : Bytes) (sourceType targetType : String) :
    Except String Bytes :=
  let text := utf8DecodeStr data
  if sourceType = "text/markdown" ∧ targetType = "text/html" then
    .ok (utf8Encode (libs.mdRender text))
  else if sourceType = "text/html" ∧ targetType = "text/markdown" then
    .ok (utf8Encode (String.mk (stripHtmlTags text.data)))
  else if sourceType = "application/json" ∧ targetType = "application/yaml" then
    match libs.jsonParse text with
    | some j => .ok (utf8Encode (convertJsonToYaml j 0))
    | none => .error "Invalid JSON"
  else if sourceType = "application/yaml" ∧ targetType = "application/json" then
    match libs.yamlLoad text with
    | some j => .ok (utf8Encode (jsonStringify 0 j))
    | none =>
      .ok (utf8Encode (jsonStringify 0 (Json.obj [("content", Json.str text)])))
  else if sourceType = "text/csv" ∧ targetType = "application/json" then
    .ok (utf8Encode (convertCsvToJson text))
  else if sourceType = "application/json" ∧ targetType = "text/csv" then
    match libs.jsonParse text with
    | some j => convertJsonToCsv j
    | none => .error "Invalid JSON"
  else
    .ok (utf8Encode text)

/-- The sharp output format chosen by convertImageToImage's switch. -/
def sharpFormat (t : String) : Option String :=
  if t = "image/png" then some "png"
  else if t = "image/jpeg" then some "jpeg"
  else if t = "image/webp" then some "webp"
  else if t = "image/gif" then some "gif"
  else none

/-- convertImageToImage: delegate to the sharp pipeline; any failure inside
the try block surfaces as an image-conversion error. -/
def convertImageToImage (libs : ExtLibs) (data : Bytes) (targetType : String) :
    Except String Bytes :=
  match sharpFormat targetType with
  | none => .error ("Image conversion failed: Unsupported target image format: " ++ targetType)
  | some fmt =>
    match libs.imageConvert data fmt with
    | some out => .ok out
    | none => .error "Image conversion failed"

/-- convertFragmentData(data, sourceType, targetType). -/
def convertFragmentData (libs : ExtLibs) (data : Bytes) (sourceType targetType : String) :
    Except String Bytes :=
  if sourceType = targetType then .ok data
  else if textTypes.contains sourceType && textTypes.contains targetType then
    convertTextToText libs data sourceType targetType
  else if imageTypes.contains sourceType && imageTypes.contains targetType then
    convertImageToImage libs data targetType
  else .error ("Conversion from " ++ sourceType ++ " to " ++ targetType ++ " is not supported")

/-- Classified route-level failures with the HTTP status each handler
sends: authRequired 401; badRequest 400; unsupportedTypeErr 415 (type
outside the registry at creation); notFound 404; typeMismatch 400 (update
with a different base mimeType); unsupportedExtension 415;
unsupportedConversion 415; conversionFailed 415; internalError 500. -/
inductive ApiErr
  | authRequired
  | badRequest (msg : String)
  | unsupportedTypeErr
  | notFound
  | typeMismatch
  | unsupportedExtension (ext : String)
  | unsupportedConversion (src tgt : String)
  | conversionFailed (msg : String)
  | internalError
deriving DecidableEq

instance {ε α : Type} [DecidableEq ε] [DecidableEq α] : DecidableEq (Except ε α) :=
  fun a b =>
    match a, b with
    | .ok x, .ok y =>
      if h : x = y then isTrue (by rw [h]) else isFalse (by intro hc; cases hc; exact h rfl)
    | .ok _, .error _ => isFalse (by intro hc; cases hc)
    | .error _, .ok _ => isFalse (by intro hc; cases hc)
    | .error x, .error y =>
      if h : x = y then isTrue (by rw [h]) else isFalse (by intro hc; cases hc; exact h rfl)

/-! ### Storage backend and service state

The route handlers run over the ephemeral in-memory backend
(src/model/data/memory/index.js). Its underlying MemoryDB class is not part
of the provided sources. -/

/-- A (ownerId, id) storage key. -/
abbrev Key := String × String

/-- Modelled from the spec: src/model/data/memory/memory-db.js is absent
from the sources; §4.2 specifies the ephemeral backend as a key-value store
addressed by primaryKey = ownerId and secondaryKey = id. get returns the
stored value or absence. -/
def dbGet {α : Type} (db : List (Key × α)) (k : Key) : Option α :=
  (db.find? (fun e => e.1 = k)).map (fun e => e.2)

/-- Modelled from the spec: put stores value under (primaryKey,
secondaryKey), overwriting in place; iteration order is insertion order. -/
def dbPut {α : Type} (db : List (Key × α)) (k : Key) (v : α) : List (Key × α) :=
  if db.any (fun e => e.1 = k) then db.map (fun e => if e.1 = k then (k, v) else e)
  else db ++ [(k, v)]

/-- Modelled from the spec: del removes the entry for the key; deleting a
missing key is a storage error (checked by the caller below). -/
def dbDel {α : Type} (db : List (Key × α)) (k : Key) : List (Key × α) :=
  db.filter (fun e => e.1 ≠ k)

/-- The two in-memory databases of the memory backend: fragment metadata
and raw data, both keyed by (ownerId, id). -/
structure State where
  metadata : List (Key × Fragment)
  content : List (Key × Bytes)
deriving DecidableEq

/-- writeFragment (memory backend): store the metadata record under
(ownerId, id). The backend serializes the record to JSON and back, which is
the identity on these plain records. -/
def writeFragment (st : State) (f : Fragment) : State :=
  { st with metadata := dbPut st.metadata (f.ownerId, f.id) f }

/-- readFragment (memory backend). -/
def readFragment (st : State) (ownerId id : String) : Option Fragment :=
  dbGet st.metadata (ownerId, id)

/-- writeFragmentData (memory backend). -/
def writeFragmentData (st : State) (ownerId id : String) (d : Bytes) : State :=
  { st with content := dbPut st.content (ownerId, id) d }

/-- readFragmentData (memory backend). -/
def readFragmentData (st : State) (ownerId id : String) : Option Bytes :=
  dbGet st.content (ownerId, id)

/-- deleteFragment (memory backend): delete metadata and data; a del on a
missing entry rejects, surfacing as a storage error. -/
def deleteFragmentBoth (st : State) (ownerId id : String) : Except String State :=
  if (dbGet st.metadata (ownerId, id)).isSome ∧ (dbGet st.content (ownerId, id)).isSome then
    .ok { metadata := dbDel st.metadata (ownerId, id)
          content := dbDel st.content (ownerId, id) }
  else .error "missing entry"

/-! ### Fragment instance methods over the state -/

/-- Fragment#save(): refresh updated and persist the metadata record. -/
def fragmentSave (st : State) (f : Fragment) (now : String) : State × Fragment :=
  let f2 := { f with updated := now }
  (writeFragment st f2, f2)

/-- Fragment#setData(data): set size to the byte length, refresh updated,
write the content record, then save() the metadata (which refreshes updated
again with the same clock). -/
def fragmentSetData (st : State) (f : Fragment) (d : Bytes) (now : String) :
    State × Fragment :=
  let f1 := { f with size := (d.length : Int), updated := now }
  let st1 := writeFragmentData st f1.ownerId f1.id d
  fragmentSave st1 f1 now

/-- Fragment.byId: read the metadata record; a missing record throws
Fragment not found, which every route maps to 404. Re-construction of the
instance via the constructor is the identity on well-formed records. -/
def fragmentById (st : State) (ownerId id : String) : Except ApiErr Fragment :=
  match readFragment st ownerId id with
  | none => .error .notFound
  | some f => .ok f

/-! ### Route handlers -/

/-- The 7 ASCII bytes of the marker that POST strips and base64-decodes. -/
def base64Marker : Bytes := [98, 97, 115, 101, 54, 52, 44]

/-- Base64 value of one byte (A-Z, a-z, 0-9, plus, slash); none for every
other byte, which Node's decoder skips. -/
def b64Val (b : Nat) : Option Nat :=
  if 65 ≤ b ∧ b ≤ 90 then some (b - 65)
  else if 97 ≤ b ∧ b ≤ 122 then some (b - 71)
  else if 48 ≤ b ∧ b ≤ 57 then some (b + 4)
  else if b = 43 then some 62
  else if b = 47 then some 63
  else none

/-- Regroup base64 sextets into bytes (a trailing single sextet yields
nothing, matching Node). -/
def b64Group : List Nat → List Nat
  | a :: b :: c :: d :: rest =>
    (a * 4 + b / 16) :: ((b % 16) * 16 + c / 4) :: ((c % 4) * 64 + d) :: b64Group rest
  | [a, b] => [a * 4 + b / 16]
  | [a, b, c] => [a * 4 + b / 16, (b % 16) * 16 + c / 4]
  | _ => []

/-- Buffer.from(s, 'base64'): Node's forgiving base64 decoder. -/
def nodeBase64Decode (bs : Bytes) : Bytes :=
  b64Group (bs.filterMap b64Val)

/-- POST /fragments. genId and now stand for crypto.randomUUID() and the
current clock. Returns the response alongside the resulting state. -/
def postFragment (st : State) (user : Option String) (ctHeader : Option String)
    (body : Bytes) (genId now : String) : Except ApiErr Fragment × State :=
  if falsyS user then (.error .authRequired, st)
  else
    match ctHeader with
    | none => (.error (.badRequest "Content-Type header is required"), st)
    | some ct =>
      if (jsTrim ct).isEmpty then (.error (.badRequest "Content-Type header is required"), st)
      else
        match parseContentType (jsTrim ct) with
        | none => (.error (.badRequest "Invalid Content-Type header"), st)
        | some parsed =>
          if ¬ isSupportedType parsed then (.error .unsupportedTypeErr, st)
          else if body.isEmpty then (.error (.badRequest "Body required"), st)
          else
            match fragmentNew
                { ownerId := user, type := some ct,
                  size := some (.num
                    ((if body.length > 7 ∧ body.take 7 = base64Marker
                      then nodeBase64Decode (body.drop 7) else body).length)) }
                genId now with
            | .error _ => (.error .internalError, st)
            | .ok f =>
              (.ok (fragmentSetData (fragmentSave st f now).1 (fragmentSave st f now).2
                  (if body.length > 7 ∧ body.take 7 = base64Marker
                   then nodeBase64Decode (body.drop 7) else body) now).2,
               (fragmentSetData (fragmentSave st f now).1 (fragmentSave st f now).2
                  (if body.length > 7 ∧ body.take 7 = base64Marker
                   then nodeBase64Decode (body.drop 7) else body) now).1)

/-- parseFragmentId: split the path parameter at its last dot; no dot, or a
dot in first or last position, means the whole parameter is the id. -/
def parseFragmentId (idParam : String) : String × Option String :=
  let cs := idParam.data
  match (cs.reverse.findIdx? (fun c => c = '.')).map (fun i => cs.length - 1 - i) with
  | none => (idParam, none)
  | some i =>
    if i = 0 ∨ i = cs.length - 1 then (idParam, none)
    else (String.mk (cs.take i), some (String.mk (cs.drop (i + 1))))

/-- Extension resolution of the GET /fragments/:id handler: map the
lowercased extension through the table (else 415 unknown extension), then
check the conversion support matrix (else 415 unsupported conversion). -/
def resolveTargetType (sourceMime ext : String) : Except ApiErr String :=
  match extLookup ext with
  | none => .error (.unsupportedExtension ext)
  | some tgt =>
    if ¬ isConversionSupported sourceMime tgt then
      .error (.unsupportedConversion sourceMime tgt)
    else .ok tgt

/-- GET /fragments/:id: look up the fragment and its bytes, resolve a
conversion extension if present, convert when the target differs from the
stored base type, and answer (bytes, contentTypeHeader). Read-only: the
state is not touched. When the content record is missing, getData resolves
undefined: without a needed conversion the handler sends an empty 200 body,
with one the conversion throws and the handler answers 415. -/
def getFragmentById (libs : ExtLibs) (st : State) (user : Option String)
    (idParam : String) : Except ApiErr (Bytes × String) :=
  if falsyS user then .error .authRequired
  else
    let owner := user.getD ""
    let pr := parseFragmentId idParam
    if pr.1.isEmpty then .error (.badRequest "Fragment ID required")
    else
      match fragmentById st owner pr.1 with
      | .error e => .error e
      | .ok f =>
        match readFragmentData st owner pr.1 with
        | some data =>
          match pr.2 with
          | none => .ok (data, f.type)
          | some ext =>
            match resolveTargetType (mimeTypeOf f.type) ext with
            | .error e => .error e
            | .ok tgt =>
              if mimeTypeOf f.type ≠ tgt then
                match convertFragmentData libs data (mimeTypeOf f.type) tgt with
                | .error m => .error (.conversionFailed m)
                | .ok outData => .ok (outData, tgt)
              else .ok (data, tgt)
        | none =>
          match pr.2 with
          | none => .ok ([], f.type)
          | some ext =>
            match resolveTargetType (mimeTypeOf f.type) ext with
            | .error e => .error e
            | .ok tgt =>
              if mimeTypeOf f.type ≠ tgt then
                .error (.conversionFailed "Cannot read properties of undefined")
              else .ok ([], tgt)

/-- PUT /fragments/:id: replace an existing fragment's content. The new
Content-Type must carry the same base mimeType as the stored record (else
400, nothing written); parameters of the type may change. body = none
models a request whose body the raw-body middleware did not parse. -/
def putFragment (st : State) (user : Option String) (idParam : String)
    (ctHeader : Option String) (body : Option Bytes) (now : String) :
    Except ApiErr Fragment × State :=
  if falsyS user then (.error .authRequired, st)
  else if idParam.isEmpty then (.error (.badRequest "Fragment ID required"), st)
  else
    match ctHeader with
    | none => (.error (.badRequest "Content-Type header is required"), st)
    | some ct =>
      if (jsTrim ct).isEmpty then (.error (.badRequest "Content-Type header is required"), st)
      else
        match parseContentType (jsTrim ct) with
        | none => (.error (.badRequest "Invalid Content-Type header"), st)
        | some requestMime =>
          match body with
          | none => (.error (.badRequest "Body required"), st)
          | some b =>
            if b.isEmpty then (.error (.badRequest "Body required"), st)
            else
              match fragmentById st (user.getD "") idParam with
              | .error e => (.error e, st)
              | .ok f =>
                if mimeTypeOf f.type ≠ requestMime then (.error .typeMismatch, st)
                else
                  (.ok (fragmentSetData st
                      (if ct ≠ f.type then { f with type := ct } else f) b now).2,
                   (fragmentSetData st
                      (if ct ≠ f.type then { f with type := ct } else f) b now).1)

/-- DELETE /fragments/:id: 404 unless the metadata record exists for this
owner, then delete both records; a backend rejection surfaces as a 500. -/
def deleteFragmentRoute (st : State) (user : Option String) (fid : String) :
    Except ApiErr Unit × State :=
  if falsyS user then (.error .authRequired, st)
  else if fid.isEmpty then (.error (.badRequest "Fragment ID required"), st)
  else
    match fragmentById st (user.getD "") fid with
    | .error e => (.error e, st)
    | .ok _ =>
      match deleteFragmentBoth st (user.getD "") fid with
      | .ok st2 => (.ok (), st2)
      | .error _ => (.error .internalError, st)

/-! ### Storage lemmas -/

theorem dbGet_cons {α : Type} (e : Key × α) (db : List (Key × α)) (k : Key) :
    dbGet (e :: db) k = if e.1 = k then some e.2 else dbGet db k := by
  by_cases h : e.1 = k <;> simp [dbGet, List.find?_cons, h]

theorem dbGet_map_put_self {α : Type} (db : List (Key × α)) (k : Key) (v : α) :
    dbGet (db.map (fun x => if x.1 = k then (k, v) else x)) k =
      if db.any (fun x => x.1 = k) then some v else none := by
  induction db with
  | nil => simp [dbGet]
  | cons e db ih =>
    by_cases he : e.1 = k
    · simp [he, dbGet_cons]
    · by_cases ha : db.any (fun x => x.1 = k)
      · simp [he, ha, dbGet_cons, ih]
      · simp only [Bool.not_eq_true] at ha
        simp [he, ha, dbGet_cons, ih]

theorem dbGet_map_put_ne {α : Type} (db : List (Key × α)) (k k' : Key) (v : α)
    (h : k' ≠ k) :
    dbGet (db.map (fun x => if x.1 = k then (k, v) else x)) k' = dbGet db k' := by
  induction db with
  | nil => simp [dbGet]
  | cons e db ih =>
    have hkk : ¬ (k = k') := fun hc => h hc.symm
    by_cases he : e.1 = k
    · have hek : ¬ (e.1 = k') := by rw [he]; exact fun hc => h hc.symm
      simp [he, dbGet_cons, hek, hkk, ih]
    · by_cases hek : e.1 = k'
      · simp [he, dbGet_cons, hek, hkk, h]
      · simp [he, dbGet_cons, hek, hkk, h, ih]

theorem dbGet_append_single_self {α : Type} (db : List (Key × α)) (k : Key) (v : α)
    (h : db.any (fun x => x.1 = k) = false) :
    dbGet (db ++ [(k, v)]) k = some v := by
  induction db with
  | nil => simp [dbGet]
  | cons e db ih =>
    have he : ¬ (e.1 = k) := by
      intro hc
      rw [List.any_cons] at h
      simp [hc] at h
    have hdb : db.any (fun x => x.1 = k) = false := by
      cases hb : db.any (fun x => x.1 = k)
      · rfl
      · rw [List.any_cons, hb] at h
        simp at h
    rw [List.cons_append, dbGet_cons, if_neg he]
    exact ih hdb

theorem dbGet_append_single_ne {α : Type} (db : List (Key × α)) (k k' : Key) (v : α)
    (h : k' ≠ k) : dbGet (db ++ [(k, v)]) k' = dbGet db k' := by
  induction db with
  | nil =>
    have hkk : ¬ (k = k') := fun hc => h hc.symm
    simp [dbGet, List.find?, hkk]
  | cons e db ih =>
    rw [List.cons_append, dbGet_cons, dbGet_cons]
    by_cases hek : e.1 = k'
    · simp [hek]
    · simp [hek, ih]

theorem dbGet_dbPut_self {α : Type} (db : List (Key × α)) (k : Key) (v : α) :
    dbGet (dbPut db k v) k = some v := by
  rw [dbPut]
  by_cases ha : db.any (fun x => x.1 = k)
  · rw [if_pos ha, dbGet_map_put_self, if_pos ha]
  · rw [if_neg ha]
    refine dbGet_append_single_self db k v ?_
    cases hb : db.any (fun x => x.1 = k)
    · rfl
    · exact absurd hb ha

theorem dbGet_dbPut_ne {α : Type} (db : List (Key × α)) (k k' : Key) (v : α)
    (h : k' ≠ k) : dbGet (dbPut db k v) k' = dbGet db k' := by
  rw [dbPut]
  by_cases ha : db.any (fun x => x.1 = k)
  · rw [if_pos ha, dbGet_map_put_ne db k k' v h]
  · rw [if_neg ha, dbGet_append_single_ne db k k' v h]

theorem dbDel_cons {α : Type} (e : Key × α) (db : List (Key × α)) (k : Key) :
    dbDel (e :: db) k = if e.1 = k then dbDel db k else e :: dbDel db k := by
  by_cases he : e.1 = k <;> simp [dbDel, List.filter_cons, he]

theorem dbGet_dbDel_self {α : Type} (db : List (Key × α)) (k : Key) :
    dbGet (dbDel db k) k = none := by
  induction db with
  | nil => simp [dbGet, dbDel]
  | cons e db ih =>
    rw [dbDel_cons]
    by_cases he : e.1 = k
    · rw [if_pos he]
      exact ih
    · rw [if_neg he, dbGet_cons, if_neg he]
      exact ih

theorem dbGet_dbDel_ne {α : Type} (db : List (Key × α)) (k k' : Key)
    (h : k' ≠ k) : dbGet (dbDel db k) k' = dbGet db k' := by
  induction db with
  | nil => simp [dbGet, dbDel]
  | cons e db ih =>
    rw [dbDel_cons]
    by_cases he : e.1 = k
    · have hek : ¬ (e.1 = k') := by rw [he]; exact fun hc => h hc.symm
      rw [if_pos he, dbGet_cons, if_neg hek]
      exact ih
    · rw [if_neg he, dbGet_cons, dbGet_cons]
      by_cases hek : e.1 = k'
      · rw [if_pos hek, if_pos hek]
      · rw [if_neg hek, if_neg hek]
        exact ih

/-- A string that is not the empty literal has isEmpty = false. -/
theorem isEmpty_eq_false_of_ne {s : String} (h : s ≠ "") : s.isEmpty = false := by
  cases hi : s.isEmpty
  · rfl
  · exact absurd ((String.isEmpty_iff s).mp hi) h

theorem falsyS_some_eq_false {s : String} (h : s ≠ "") : falsyS (some s) = false := by
  simp [falsyS, isEmpty_eq_false_of_ne h]

theorem list_isEmpty_eq_false {α : Type} {l : List α} (h : l ≠ []) :
    l.isEmpty = false := by
  cases l
  · exact absurd rfl h
  · rfl

/-- A path parameter without a dot parses to itself with no extension. -/
theorem parseFragmentId_no_dot (s : String) (h : ∀ c ∈ s.data, c ≠ '.') :
    parseFragmentId s = (s, none) := by
  rw [parseFragmentId]
  have hidx : s.data.reverse.findIdx? (fun c => c = '.') = none := by
    rw [List.findIdx?_eq_none_iff]
    intro c hc
    simp only [decide_eq_false_iff_not]
    exact h c (List.mem_reverse.mp hc)
  simp only [hidx]
  rfl

/-! ### Canonical runs of the handlers -/

/-- A successful POST /fragments run, fully evaluated: the created record
carries genId, the raw Content-Type header and the body length, and both
stores gain the record under (owner, genId). The metadata store is written
twice because the handler calls save() and then setData(). -/
theorem postFragment_ok (st : State) (owner ct m : String) (X : Bytes)
    (genId now : String)
    (howner : owner ≠ "")
    (hparse : parseContentType (jsTrim ct) = some m)
    (hsup : isSupportedType m = true)
    (hraw : isSupportedType ct = true)
    (hct : ct ≠ "")
    (hX : X ≠ [])
    (hb64 : ¬ (X.length > 7 ∧ X.take 7 = base64Marker)) :
    postFragment st (some owner) (some ct) X genId now =
      (.ok { id := genId, ownerId := owner, type := ct, size := (X.length : Int),
             created := now, updated := now },
       { metadata := dbPut
           (dbPut st.metadata (owner, genId)
             { id := genId, ownerId := owner, type := ct, size := (X.length : Int),
               created := now, updated := now })
           (owner, genId)
           { id := genId, ownerId := owner, type := ct, size := (X.length : Int),
             created := now, updated := now }
         content := dbPut st.content (owner, genId) X }) := by
  have hemp : (jsTrim ct).isEmpty = false := by
    cases he : (jsTrim ct).isEmpty
    · rfl
    · exfalso
      have he2 : jsTrim ct = "" := (String.isEmpty_iff _).mp he
      rw [he2] at hparse
      have hnone : parseContentType "" = none := by decide
      rw [hnone] at hparse
      cases hparse
  have hXe : X.isEmpty = false := list_isEmpty_eq_false hX
  have hneg : ¬ ((X.length : Int) < 0) := by omega
  rw [postFragment]
  simp only [falsyS_some_eq_false howner, Bool.false_eq_true, if_false]
  simp only [hemp, Bool.false_eq_true, if_false]
  rw [hparse]
  simp only [hsup, not_true, if_false]
  simp only [hXe, Bool.false_eq_true, if_false]
  rw [if_neg hb64]
  rw [fragmentNew]
  simp only [falsyS_some_eq_false howner, falsyS_some_eq_false hct, Bool.false_eq_true,
    if_false, Option.getD_some]
  simp only [hraw, not_true, if_false]
  rw [if_neg hneg]
  simp only [fragmentSave, fragmentSetData, writeFragment, writeFragmentData, falsyS]
  simp

/-- A GET /fragments/:id run without an extension returns the stored bytes
and the stored raw type. -/
theorem getFragmentById_raw (libs : ExtLibs) (st : State) (owner fid : String)
    (f : Fragment) (data : Bytes)
    (howner : owner ≠ "")
    (hfid : fid ≠ "")
    (hdot : ∀ c ∈ fid.data, c ≠ '.')
    (hmeta : readFragment st owner fid = some f)
    (hdata : readFragmentData st owner fid = some data) :
    getFragmentById libs st (some owner) fid = .ok (data, f.type) := by
  rw [getFragmentById]
  simp only [falsyS_some_eq_false howner, Bool.false_eq_true, if_false, Option.getD_some]
  rw [parseFragmentId_no_dot fid hdot]
  simp only [isEmpty_eq_false_of_ne hfid, Bool.false_eq_true, if_false]
  rw [fragmentById, hmeta, hdata]

/-- Placeholder external libraries for concrete runs that never reach
JSON.parse, js-yaml, markdown-it or sharp. -/
def noLibs : ExtLibs :=
  ⟨fun _ => none, fun _ => none, fun s => s, fun _ _ => none⟩

/-- C1, counterexample: a text/plain body that happens to start with the
seven ASCII bytes "base64," is base64-decoded by the POST handler before
storage, so create-then-read does not return the original bytes and size is
not the body length. The body is "base64,AAAA" (11 bytes); the stored
content is the decode of "AAAA", i.e. [0, 0, 0] of size 3. -/
theorem c1_base64_marker_cex :
    (postFragment { metadata := [], content := [] } (some "owner1")
        (some "text/plain") [98, 97, 115, 101, 54, 52, 44, 65, 65, 65, 65]
        "fid1" "t0").1 =
      .ok { id := "fid1", ownerId := "owner1", type := "text/plain", size := 3,
            created := "t0", updated := "t0" } ∧
    getFragmentById noLibs
      (postFragment { metadata := [], content := [] } (some "owner1")
        (some "text/plain") [98, 97, 115, 101, 54, 52, 44, 65, 65, 65, 65]
        "fid1" "t0").2
      (some "owner1") "fid1" = .ok ([0, 0, 0], "text/plain") ∧
    (3 : Int) ≠ ([98, 97, 115, 101, 54, 52, 44, 65, 65, 65, 65] : Bytes).length ∧
    ([0, 0, 0] : Bytes) ≠ [98, 97, 115, 101, 54, 52, 44, 65, 65, 65, 65] := by
  decide

/-- C1 (amended): for every owner and every nonempty body X that does not
start with the 7-byte marker "base64,", creating a text/plain fragment and
reading it back gives size = |X| and exactly the bytes X. -/
theorem c1_create_read_roundtrip (libs : ExtLibs) (st : State)
    (owner genId now : String) (X : Bytes)
    (howner : owner ≠ "")
    (hX : X ≠ [])
    (hb64 : ¬ (X.length > 7 ∧ X.take 7 = base64Marker))
    (hgen : genId ≠ "")
    (hdot : ∀ c ∈ genId.data, c ≠ '.') :
    (postFragment st (some owner) (some "text/plain") X genId now).1 =
      .ok { id := genId, ownerId := owner, type := "text/plain",
            size := (X.length : Int), created := now, updated := now } ∧
    getFragmentById libs
      (postFragment st (some owner) (some "text/plain") X genId now).2
      (some owner) genId = .ok (X, "text/plain") := by
  have hpost := postFragment_ok st owner "text/plain" "text/plain" X genId now
    howner (by decide) (by decide) (by decide) (by decide) hX hb64
  constructor
  · rw [hpost]
  · rw [hpost]
    exact getFragmentById_raw libs _ owner genId
      { id := genId, ownerId := owner, type := "text/plain",
        size := (X.length : Int), created := now, updated := now } X
      howner hgen hdot
      (by rw [readFragment]; exact dbGet_dbPut_self _ _ _)
      (by rw [readFragmentData]; exact dbGet_dbPut_self _ _ _)

theorem c1_create_read_roundtrip_witness :
    (postFragment { metadata := [], content := [] } (some "alice")
        (some "text/plain") [104, 105] "fid1" "t0").1 =
      .ok { id := "fid1", ownerId := "alice", type := "text/plain",
            size := 2, created := "t0", updated := "t0" } ∧
    getFragmentById noLibs
      (postFragment { metadata := [], content := [] } (some "alice")
        (some "text/plain") [104, 105] "fid1" "t0").2
      (some "alice") "fid1" = .ok ([104, 105], "text/plain") :=
  c1_create_read_roundtrip noLibs { metadata := [], content := [] } "alice"
    "fid1" "t0" [104, 105] (by decide) (by decide) (by decide) (by decide) (by decide)

/-- C2, counterexample: a stored application/yaml fragment whose payload
the YAML parser rejects (modelled by yamlLoad = none, as for the malformed
text "a: [b") is still served with 200 under the json extension: the
handler falls back to wrapping the raw text, it never raises
ConversionFailed. -/
theorem c2_yaml_invalid_cex :
    getFragmentById noLibs
      { metadata := [(("o1", "f1"),
          { id := "f1", ownerId := "o1", type := "application/yaml", size := 5,
            created := "t0", updated := "t0" })]
        content := [(("o1", "f1"), utf8Encode "a: [b")] }
      (some "o1") "f1.json" =
      .ok (utf8Encode (jsonStringify 0 (Json.obj [("content", Json.str "a: [b")])),
        "application/json") := by
  decide

/-- C2 (amended): converting application/yaml to application/json never
fails: when the YAML parser accepts, the parsed value is re-serialized as
JSON; when it rejects the source text, the conversion falls back to the
JSON object wrapping the raw text under the key content, still a success. -/
theorem c2_yaml_to_json_total (libs : ExtLibs) (d : Bytes) :
    (∀ m, convertTextToText libs d "application/yaml" "application/json" ≠ .error m) ∧
    (libs.yamlLoad (utf8DecodeStr d) = none →
      convertTextToText libs d "application/yaml" "application/json" =
        .ok (utf8Encode (jsonStringify 0
          (Json.obj [("content", Json.str (utf8DecodeStr d))])))) := by
  rw [convertTextToText]
  rw [if_neg (by decide), if_neg (by decide), if_neg (by decide), if_pos (by decide)]
  constructor
  · intro m
    cases hy : libs.yamlLoad (utf8DecodeStr d) <;> simp [hy]
  · intro hfail
    rw [hfail]

theorem c2_yaml_to_json_total_witness :
    noLibs.yamlLoad (utf8DecodeStr (utf8Encode "a: [b")) = none ∧
    convertTextToText noLibs (utf8Encode "a: [b") "application/yaml"
        "application/json" =
      .ok (utf8Encode (jsonStringify 0
        (Json.obj [("content", Json.str (utf8DecodeStr (utf8Encode "a: [b")))]))) :=
  ⟨rfl, (c2_yaml_to_json_total noLibs (utf8Encode "a: [b")).2 rfl⟩

/-- C3, counterexample: the extension table also contains .avif, which is
outside the closed table of §4.3; requesting a text/plain fragment with
extension avif therefore yields UnsupportedConversion (415 cannot convert)
rather than the UnsupportedExtension the claim requires. -/
theorem c3_avif_cex :
    extLookup "avif" = some "image/avif" ∧
    getFragmentById noLibs
      { metadata := [(("o1", "f1"),
          { id := "f1", ownerId := "o1", type := "text/plain", size := 1,
            created := "t0", updated := "t0" })]
        content := [(("o1", "f1"), [104])] }
      (some "o1") "f1.avif" =
      .error (.unsupportedConversion "text/plain" "image/avif") := by
  decide

/-- Membership in the text family, as a disjunction of string equations. -/
theorem textTypes_cases (s : String) (h : textTypes.contains s = true) :
    s = "text/plain" ∨ s = "text/markdown" ∨ s = "text/html" ∨
      s = "text/csv" ∨ s = "application/json" ∨ s = "application/yaml" := by
  simpa [textTypes] using h

/-- Membership in the image family, as a disjunction of string equations. -/
theorem imageTypes_cases (s : String) (h : imageTypes.contains s = true) :
    s = "image/png" ∨ s = "image/jpeg" ∨ s = "image/webp" ∨ s = "image/gif" := by
  simpa [imageTypes] using h

/-- Membership in the supported-type registry, as a disjunction of string
equations. -/
theorem supportedTypes_cases (s : String) (h : supportedTypes.contains s = true) :
    s = "text/plain" ∨ s = "text/markdown" ∨ s = "text/html" ∨
      s = "text/csv" ∨ s = "application/json" ∨ s = "application/yaml" ∨
      s = "image/png" ∨ s = "image/jpeg" ∨ s = "image/webp" ∨ s = "image/gif" := by
  simpa [supportedTypes] using h

/-- C3 (amended): an extension whose lowercased dotted form is outside the
handler's table (which includes avif) resolves to UnsupportedExtension; a
table extension whose target sits in the other family than the fragment's
base type resolves to UnsupportedConversion; and the table extension avif
resolves to image/avif, which belongs to neither conversion family, so for
every fragment type in the supported-type registry it resolves to
UnsupportedConversion. -/
theorem c3_extension_resolution (m ext : String) :
    (extLookup ext = none →
      resolveTargetType m ext = .error (.unsupportedExtension ext)) ∧
    (∀ tgt, extLookup ext = some tgt → textTypes.contains m = true →
      imageTypes.contains tgt = true →
      resolveTargetType m ext = .error (.unsupportedConversion m tgt)) ∧
    (∀ tgt, extLookup ext = some tgt → imageTypes.contains m = true →
      textTypes.contains tgt = true →
      resolveTargetType m ext = .error (.unsupportedConversion m tgt)) ∧
    (supportedTypes.contains m = true →
      resolveTargetType m "avif" = .error (.unsupportedConversion m "image/avif")) := by
  refine ⟨fun h => by rw [resolveTargetType, h], ?_, ?_, ?_⟩
  · intro tgt hlook hm htgt
    rw [resolveTargetType, hlook]
    rcases textTypes_cases m hm with rfl | rfl | rfl | rfl | rfl | rfl <;>
      rcases imageTypes_cases tgt htgt with rfl | rfl | rfl | rfl <;>
        (dsimp only; rw [if_pos (by decide)])
  · intro tgt hlook hm htgt
    rw [resolveTargetType, hlook]
    rcases imageTypes_cases m hm with rfl | rfl | rfl | rfl <;>
      rcases textTypes_cases tgt htgt with rfl | rfl | rfl | rfl | rfl | rfl <;>
        (dsimp only; rw [if_pos (by decide)])
  · intro hm
    rcases supportedTypes_cases m hm with
      rfl | rfl | rfl | rfl | rfl | rfl | rfl | rfl | rfl | rfl <;> decide

theorem c3_extension_resolution_witness :
    (extLookup "bogus" = none ∧
      resolveTargetType "text/plain" "bogus" = .error (.unsupportedExtension "bogus")) ∧
    (extLookup "png" = some "image/png" ∧
      textTypes.contains "text/plain" = true ∧
      imageTypes.contains "image/png" = true ∧
      resolveTargetType "text/plain" "png" =
        .error (.unsupportedConversion "text/plain" "image/png")) ∧
    (supportedTypes.contains "image/png" = true ∧
      resolveTargetType "image/png" "avif" =
        .error (.unsupportedConversion "image/png" "image/avif")) :=
  ⟨⟨by decide, (c3_extension_resolution "text/plain" "bogus").1 (by decide)⟩,
   ⟨by decide, by decide, by decide,
     (c3_extension_resolution "text/plain" "png").2.1 "image/png"
       (by decide) (by decide) (by decide)⟩,
   ⟨by decide, (c3_extension_resolution "image/png" "avif").2.2.2 (by decide)⟩⟩

theorem mk_data (s : String) : String.mk s.data = s := rfl

/-- Is the JSON value a string? -/
def isStrVal : Json → Bool
  | .str _ => true
  | _ => false

/-- Every field value inserted by the CSV row builder is a JSON string. -/
theorem foldl_jsObjSet_str (pairs : List (Nat × String)) (values : List String)
    (acc : List (String × Json))
    (hacc : ∀ e ∈ acc, isStrVal e.2 = true) :
    ∀ e ∈ pairs.foldl (fun a p => jsObjSet a p.2 (Json.str (values.getD p.1 ""))) acc,
      isStrVal e.2 = true := by
  induction pairs generalizing acc with
  | nil => exact hacc
  | cons p ps ih =>
    intro e he
    rw [List.foldl_cons] at he
    refine ih _ ?_ e he
    intro e2 he2
    rw [jsObjSet] at he2
    by_cases hany : acc.any (fun q => q.1 = p.2)
    · rw [if_pos hany] at he2
      rw [List.mem_map] at he2
      obtain ⟨q, hq, hq2⟩ := he2
      by_cases hqk : q.1 = p.2
      · rw [← hq2, if_pos hqk]
        rfl
      · rw [← hq2, if_neg hqk]
        exact hacc q hq
    · rw [if_neg hany] at he2
      rw [List.mem_append] at he2
      rcases he2 with he2 | he2
      · exact hacc e2 he2
      · rw [List.mem_singleton] at he2
        rw [he2]
        rfl

theorem csvRowObj_vals_str (headers values : List String) :
    ∀ e ∈ csvRowObj headers values, isStrVal e.2 = true := by
  rw [csvRowObj]
  exact foldl_jsObjSet_str _ _ [] (fun e he => by cases he)

/-- Splitting on a character that does not occur leaves one piece. -/
theorem splitOnChar_not_mem (sep : Char) (cs : List Char)
    (h : ∀ c ∈ cs, c ≠ sep) : splitOnChar sep cs = [cs] := by
  induction cs with
  | nil => rfl
  | cons c rest ih =>
    rw [splitOnChar]
    rw [if_neg (h c (List.mem_cons_self c rest))]
    rw [ih (fun x hx => h x (List.mem_cons_of_mem c hx))]

/-- C8: the CSV → JSON conversion. First conjunct: the spec's concrete
scenario, run through the whole GET handler: body "name,age\nJohn,30"
converts to the JSON document [{"name": "John", "age": "30"}] (serialized
with 2-space indent). Second: an input without any newline — a lone header
row — yields the empty JSON list. Third: every produced row is an object
all of whose values are strings. -/
theorem c8_csv_to_json :
    (getFragmentById noLibs
      { metadata := [(("o1", "f1"),
          { id := "f1", ownerId := "o1", type := "text/csv", size := 16,
            created := "t0", updated := "t0" })]
        content := [(("o1", "f1"), utf8Encode "name,age\nJohn,30")] }
      (some "o1") "f1.json" =
      .ok (utf8Encode (jsonStringify 0
        (Json.arr [Json.obj [("name", Json.str "John"), ("age", Json.str "30")]])),
        "application/json")) ∧
    (∀ hdr : String, (∀ c ∈ hdr.data, c ≠ Char.ofNat 10) →
      convertCsvToJson hdr = "[]") ∧
    (∀ text : String, (csvRows text).all (fun r =>
      match r with
      | .obj fs => fs.all (fun kv => isStrVal kv.2)
      | _ => false) = true) := by
  refine ⟨by decide, ?_, ?_⟩
  · intro hdr h
    have hsplit : jsSplit hdr (Char.ofNat 10) = [hdr] := by
      rw [jsSplit, splitOnChar_not_mem _ _ h, List.map_cons, List.map_nil, mk_data]
    rw [convertCsvToJson, csvRows, hsplit]
    cases hb : (jsTrim hdr).isEmpty <;> simp [hb, List.filter] <;> decide
  · intro text
    rw [csvRows]
    cases hl : (jsSplit text (Char.ofNat 10)).filter (fun l => !(jsTrim l).isEmpty) with
    | nil => rfl
    | cons first rest =>
      rw [List.all_eq_true]
      intro r hr
      rw [List.mem_map] at hr
      obtain ⟨line, _, hline⟩ := hr
      rw [← hline]
      dsimp only
      rw [List.all_eq_true]
      intro kv hkv
      exact csvRowObj_vals_str _ _ kv hkv

/-- The six text-to-text pairs with dedicated conversion branches. -/
def dedicatedPairs : List (String × String) :=
  [("text/markdown", "text/html"), ("text/html", "text/markdown"),
   ("application/json", "application/yaml"), ("application/yaml", "application/json"),
   ("text/csv", "application/json"), ("application/json", "text/csv")]

/-- C9, counterexample: the pass-through branch decodes and re-encodes the
bytes as UTF-8, so the non-UTF-8 text/plain payload [0xFF] converts to
text/html as the replacement-character bytes [0xEF, 0xBF, 0xBD], not as the
input bytes. -/
theorem c9_passthrough_cex :
    convertTextToText noLibs [255] "text/plain" "text/html" = .ok [239, 191, 189] ∧
    ([239, 191, 189] : Bytes) ≠ [255] := by
  decide

/-- C9 (amended): every text-to-text pair without a dedicated branch
re-encodes the UTF-8 decoding of the input, which returns the input bytes
unchanged exactly when they are valid UTF-8 (in particular for the encoding
of any string); malformed sequences are rewritten to U+FFFD bytes. -/
theorem c9_text_passthrough (libs : ExtLibs) (src tgt : String) (d : Bytes)
    (hsrc : textTypes.contains src = true)
    (htgt : textTypes.contains tgt = true)
    (hne : src ≠ tgt)
    (hded : (src, tgt) ∉ dedicatedPairs) :
    convertTextToText libs d src tgt = .ok (utf8Encode (utf8DecodeStr d)) ∧
    (∀ s : String, d = utf8Encode s → convertTextToText libs d src tgt = .ok d) := by
  have hmain : convertTextToText libs d src tgt = .ok (utf8Encode (utf8DecodeStr d)) := by
    rw [convertTextToText]
    rw [if_neg (by rintro ⟨rfl, rfl⟩; exact hded (by decide))]
    rw [if_neg (by rintro ⟨rfl, rfl⟩; exact hded (by decide))]
    rw [if_neg (by rintro ⟨rfl, rfl⟩; exact hded (by decide))]
    rw [if_neg (by rintro ⟨rfl, rfl⟩; exact hded (by decide))]
    rw [if_neg (by rintro ⟨rfl, rfl⟩; exact hded (by decide))]
    rw [if_neg (by rintro ⟨rfl, rfl⟩; exact hded (by decide))]
  refine ⟨hmain, ?_⟩
  rintro s rfl
  rw [hmain, utf8DecodeStr_utf8Encode]

theorem c9_text_passthrough_witness :
    textTypes.contains "text/plain" = true ∧
    textTypes.contains "text/html" = true ∧
    ("text/plain", "text/html") ∉ dedicatedPairs ∧
    convertTextToText noLibs [120] "text/plain" "text/html" = .ok [120] :=
  ⟨by decide, by decide, by decide,
    (c9_text_passthrough noLibs "text/plain" "text/html" [120]
      (by decide) (by decide) (by decide) (by decide)).2 "x" (by decide)⟩

theorem toNat_ofNat_valid {n : Nat} (h : n.isValidChar) : (Char.ofNat n).toNat = n := by
  rw [Char.ofNat, dif_pos h]
  rfl

theorem lowerChar_idem (c : Char) : lowerChar (lowerChar c) = lowerChar c := by
  by_cases h : 65 ≤ c.toNat ∧ c.toNat ≤ 90
  · have h1 : lowerChar c = Char.ofNat (c.toNat + 32) := by rw [lowerChar, if_pos h]
    have hv : (c.toNat + 32).isValidChar := Or.inl (by omega)
    rw [h1, lowerChar, toNat_ofNat_valid hv, if_neg (by omega)]
  · have h1 : lowerChar c = c := by rw [lowerChar, if_neg h]
    rw [h1, h1]

theorem lowerStr_idem (s : String) : lowerStr (lowerStr s) = lowerStr s := by
  rw [lowerStr, lowerStr]
  show String.mk ((s.data.map lowerChar).map lowerChar) = String.mk (s.data.map lowerChar)
  rw [List.map_map]
  congr 1
  exact List.map_congr_left (fun c _ => lowerChar_idem c)

/-- Extension lookup is insensitive to the case of the extension. -/
theorem extLookup_lower (e : String) : extLookup (lowerStr e) = extLookup e := by
  rw [extLookup, extLookup, lowerStr_idem]

/-- The id part before the last dot and the extension after it. -/
theorem parseFragmentId_split (a b : String) (ha : a ≠ "") (hb : b ≠ "")
    (hdot : ∀ c ∈ b.data, c ≠ '.') :
    parseFragmentId (a ++ "." ++ b) = (a, some b) := by
  have hdata : (a ++ "." ++ b).data = (a.data ++ ['.']) ++ b.data := by
    rw [String.data_append, String.data_append]
  have hbrev : b.data.reverse.findIdx? (fun c => c = '.') = none := by
    rw [List.findIdx?_eq_none_iff]
    intro c hc
    simp only [decide_eq_false_iff_not]
    exact hdot c (List.mem_reverse.mp hc)
  have hanil : a.data ≠ [] := by
    intro hc
    exact ha (by cases a with | mk l => cases hc; rfl)
  have hbnil : b.data ≠ [] := by
    intro hc
    exact hb (by cases b with | mk l => cases hc; rfl)
  rw [parseFragmentId, hdata]
  have hfind : ((a.data ++ ['.']) ++ b.data).reverse.findIdx? (fun c => c = '.') =
      some b.data.length := by
    rw [List.reverse_append, List.reverse_append]
    rw [show (['.'] : List Char).reverse ++ a.data.reverse = '.' :: a.data.reverse
      from rfl]
    rw [List.findIdx?_append, hbrev]
    rw [List.findIdx?_cons]
    rw [if_pos (by decide)]
    simp
  rw [hfind]
  dsimp only [Option.map]
  have hlen : ((a.data ++ ['.']) ++ b.data).length - 1 - b.data.length =
      a.data.length := by
    simp [List.length_append]
  rw [hlen]
  have hbl : b.data.length ≠ 0 := fun hh => hbnil (List.length_eq_zero.mp hh)
  have hexp : ((a.data ++ ['.']) ++ b.data).length =
      a.data.length + 1 + b.data.length := by simp; omega
  have hcond : ¬ (a.data.length = 0 ∨
      a.data.length = ((a.data ++ ['.']) ++ b.data).length - 1) := by
    intro hor
    rcases hor with hor | hor
    · exact hanil (List.length_eq_zero.mp hor)
    · rw [hexp] at hor
      omega
  rw [if_neg hcond]
  have htake : ((a.data ++ ['.']) ++ b.data).take a.data.length = a.data := by
    rw [List.append_assoc]
    exact List.take_left' rfl
  have hdrop : ((a.data ++ ['.']) ++ b.data).drop (a.data.length + 1) = b.data :=
    List.drop_left' (by simp)
  rw [htake, hdrop, mk_data, mk_data]

/-- A parameter whose only dot is its first character keeps the whole
parameter as the id. -/
theorem parseFragmentId_leading_dot (b : String) (hdot : ∀ c ∈ b.data, c ≠ '.') :
    parseFragmentId ("." ++ b) = ("." ++ b, none) := by
  have hdata : ("." ++ b).data = '.' :: b.data := by
    rw [String.data_append]
    rfl
  have hbrev : b.data.reverse.findIdx? (fun c => c = '.') = none := by
    rw [List.findIdx?_eq_none_iff]
    intro c hc
    simp only [decide_eq_false_iff_not]
    exact hdot c (List.mem_reverse.mp hc)
  rw [parseFragmentId, hdata]
  have hfind : ('.' :: b.data).reverse.findIdx? (fun c => c = '.') =
      some b.data.length := by
    rw [show ('.' :: b.data).reverse = b.data.reverse ++ ['.'] from by simp]
    rw [List.findIdx?_append, hbrev]
    rw [List.findIdx?_cons]
    rw [if_pos (by decide)]
    simp
  rw [hfind]
  dsimp only [Option.map]
  have hlen : ('.' :: b.data).length - 1 - b.data.length = 0 := by
    simp
  rw [hlen]
  rw [if_pos (Or.inl rfl)]

/-- A parameter whose last character is a dot keeps the whole parameter as
the id. -/
theorem parseFragmentId_trailing_dot (p : String)
    (hp : p.data.getLast? = some '.') : parseFragmentId p = (p, none) := by
  rw [List.getLast?_eq_head?_reverse] at hp
  cases hr : p.data.reverse with
  | nil => rw [hr] at hp; cases hp
  | cons c t =>
    rw [hr] at hp
    have hc : c = '.' := Option.some.inj hp
    subst hc
    rw [parseFragmentId, hr]
    rw [List.findIdx?_cons]
    rw [if_pos (by decide)]
    dsimp only [Option.map]
    exact if_pos (Or.inr (by omega))

/-- C10: GET /fragments/:id takes the conversion extension as the substring
after the LAST dot of the path parameter, matched against the table
case-insensitively; a parameter without a dot, or whose only dot is first,
or whose dot is last, is entirely the fragment id with no conversion. -/
theorem c10_extension_parsing :
    (∀ p : String, (∀ c ∈ p.data, c ≠ '.') → parseFragmentId p = (p, none)) ∧
    (∀ a b : String, a ≠ "" → b ≠ "" → (∀ c ∈ b.data, c ≠ '.') →
      parseFragmentId (a ++ "." ++ b) = (a, some b)) ∧
    (∀ b : String, (∀ c ∈ b.data, c ≠ '.') →
      parseFragmentId ("." ++ b) = ("." ++ b, none)) ∧
    (∀ p : String, p.data.getLast? = some '.' → parseFragmentId p = (p, none)) ∧
    (∀ e : String, extLookup (lowerStr e) = extLookup e) ∧
    resolveTargetType "text/plain" "HTML" = resolveTargetType "text/plain" "html" ∧
    resolveTargetType "text/plain" "HTML" = .ok "text/html" :=
  ⟨parseFragmentId_no_dot, parseFragmentId_split, parseFragmentId_leading_dot,
   parseFragmentId_trailing_dot, extLookup_lower, by decide, by decide⟩

theorem c10_extension_parsing_witness :
    parseFragmentId "abc" = ("abc", none) ∧
    parseFragmentId "abc-123.html" = ("abc-123", some "html") ∧
    parseFragmentId ".html" = (".html", none) ∧
    parseFragmentId "abc." = ("abc.", none) ∧
    extLookup (lowerStr "HTML") = extLookup "HTML" :=
  ⟨c10_extension_parsing.1 "abc" (by decide),
   c10_extension_parsing.2.1 "abc-123" "html" (by decide) (by decide) (by decide),
   c10_extension_parsing.2.2.1 "html" (by decide),
   c10_extension_parsing.2.2.2.1 "abc." (by decide),
   c10_extension_parsing.2.2.2.2.1 "HTML"⟩

/-- C7: Fragment construction fails with ValidationError when ownerId or
type is missing (JS-falsy), with UnsupportedType when the base mimeType is
outside the registry, and with ValidationError when size is not a number or
negative; on success without a supplied id the generated id is used, and
created/updated default to the current clock when not supplied. -/
theorem c7_constructor_validation (genId now : String) :
    (∀ a : FragmentArgs, falsyS a.ownerId = true →
      fragmentNew a genId now = .error (.validationError "ownerId is required")) ∧
    (∀ a : FragmentArgs, falsyS a.ownerId = false → falsyS a.type = true →
      fragmentNew a genId now = .error (.validationError "type is required")) ∧
    (∀ a : FragmentArgs, falsyS a.ownerId = false → falsyS a.type = false →
      isSupportedType (a.type.getD "") = false →
      fragmentNew a genId now = .error (.unsupportedType (a.type.getD ""))) ∧
    (∀ a : FragmentArgs, falsyS a.ownerId = false → falsyS a.type = false →
      isSupportedType (a.type.getD "") = true → a.size = some .nonNumber →
      fragmentNew a genId now = .error (.validationError "size must be a number")) ∧
    (∀ (a : FragmentArgs) (n : Int), falsyS a.ownerId = false → falsyS a.type = false →
      isSupportedType (a.type.getD "") = true → a.size = some (.num n) → n < 0 →
      fragmentNew a genId now = .error (.validationError "size cannot be negative")) ∧
    (∀ (a : FragmentArgs) (f : Fragment), fragmentNew a genId now = .ok f →
      (a.id = none → f.id = genId) ∧
      (a.created = none → f.created = now) ∧
      (a.updated = none → f.updated = now)) := by
  refine ⟨?_, ?_, ?_, ?_, ?_, ?_⟩
  · intro a h
    rw [fragmentNew, if_pos h]
  · intro a h1 h2
    rw [fragmentNew]
    simp only [h1, h2, Bool.false_eq_true, if_false, if_true]
  · intro a h1 h2 h3
    rw [fragmentNew]
    simp only [h1, h2, h3, Bool.false_eq_true, if_false, not_false_eq_true, if_true]
  · intro a h1 h2 h3 h4
    rw [fragmentNew]
    simp only [h1, h2, h3, h4, Bool.false_eq_true, if_false, not_true, if_true,
      Option.getD_some]
  · intro a n h1 h2 h3 h4 h5
    rw [fragmentNew]
    simp only [h1, h2, h3, h4, Bool.false_eq_true, if_false, not_true, if_true,
      Option.getD_some]
    rw [if_pos h5]
  · intro a f h
    rw [fragmentNew] at h
    by_cases h1 : falsyS a.ownerId = true
    · rw [if_pos h1] at h
      cases h
    · rw [if_neg h1] at h
      by_cases h2 : falsyS a.type = true
      · rw [if_pos h2] at h
        cases h
      · rw [if_neg h2] at h
        by_cases h3 : isSupportedType (a.type.getD "") = true
        · rw [if_neg (by simp [h3])] at h
          cases hs : a.size.getD (.num 0) with
          | nonNumber =>
            rw [hs] at h
            dsimp only at h
            cases h
          | num n =>
            rw [hs] at h
            dsimp only at h
            by_cases h5 : n < 0
            · rw [if_pos h5] at h
              cases h
            · rw [if_neg h5] at h
              have hf := Except.ok.inj h
              refine ⟨?_, ?_, ?_⟩
              · intro hid
                rw [← hf]
                simp [hid, falsyS]
              · intro hcr
                rw [← hf]
                simp [hcr, falsyS]
              · intro hup
                rw [← hf]
                simp [hup, falsyS]
        · rw [if_pos (by simp [h3])] at h
          cases h

theorem c7_constructor_validation_witness :
    fragmentNew { ownerId := some "", type := some "text/plain" } "g1" "t1" =
      .error (.validationError "ownerId is required") ∧
    fragmentNew { ownerId := some "alice" } "g1" "t1" =
      .error (.validationError "type is required") ∧
    fragmentNew { ownerId := some "alice", type := some "text/xml" } "g1" "t1" =
      .error (.unsupportedType "text/xml") ∧
    fragmentNew
      { ownerId := some "alice", type := some "text/plain", size := some .nonNumber }
      "g1" "t1" = .error (.validationError "size must be a number") ∧
    fragmentNew
      { ownerId := some "alice", type := some "text/plain", size := some (.num (-2)) }
      "g1" "t1" = .error (.validationError "size cannot be negative") ∧
    ({ id := "g1", ownerId := "alice", type := "text/plain", size := 0,
       created := "t1", updated := "t1" } : Fragment).id = "g1" ∧
    ({ id := "g1", ownerId := "alice", type := "text/plain", size := 0,
       created := "t1", updated := "t1" } : Fragment).created = "t1" := by
  have h := c7_constructor_validation "g1" "t1"
  exact ⟨h.1 _ (by decide), h.2.1 _ (by decide) (by decide),
    h.2.2.1 _ (by decide) (by decide) (by decide),
    h.2.2.2.1 _ (by decide) (by decide) (by decide) rfl,
    h.2.2.2.2.1 _ (-2) (by decide) (by decide) (by decide) rfl (by decide),
    (h.2.2.2.2.2 { ownerId := some "alice", type := some "text/plain" } _
      (by decide)).1 rfl,
    (h.2.2.2.2.2 { ownerId := some "alice", type := some "text/plain" } _
      (by decide)).2.1 rfl⟩

theorem jsTrim_nonempty_of_parse {s m : String}
    (h : parseContentType (jsTrim s) = some m) : (jsTrim s).isEmpty = false := by
  cases he : (jsTrim s).isEmpty
  · rfl
  · exfalso
    have he2 : jsTrim s = "" := (String.isEmpty_iff _).mp he
    rw [he2] at h
    have hnone : parseContentType "" = none := by decide
    rw [hnone] at h
    cases h

/-- C4: an update whose Content-Type carries a different base mimeType than
the stored fragment fails with TypeMismatch and returns the state
untouched; a successful update stores the new raw Content-Type, whose base
mimeType the handler has checked equal to the stored one — the base
mimeType never changes, only parameters may. -/
theorem c4_update_type_stability (st : State) (owner fid ct now : String)
    (b : Bytes) (f : Fragment)
    (howner : owner ≠ "") (hfid : fid ≠ "") (hb : b ≠ [])
    (hfound : readFragment st owner fid = some f) :
    (∀ m, parseContentType (jsTrim ct) = some m → m ≠ mimeTypeOf f.type →
      putFragment st (some owner) fid (some ct) (some b) now =
        (.error .typeMismatch, st)) ∧
    (∀ g st2, putFragment st (some owner) fid (some ct) (some b) now = (.ok g, st2) →
      g.type = ct ∧ parseContentType (jsTrim ct) = some (mimeTypeOf f.type)) := by
  constructor
  · intro m hparse hne
    rw [putFragment]
    simp only [falsyS_some_eq_false howner, Bool.false_eq_true, if_false]
    simp only [isEmpty_eq_false_of_ne hfid, Bool.false_eq_true, if_false]
    simp only [jsTrim_nonempty_of_parse hparse, Bool.false_eq_true, if_false]
    rw [hparse]
    simp only [list_isEmpty_eq_false hb, Bool.false_eq_true, if_false,
      Option.getD_some]
    rw [fragmentById, hfound]
    dsimp only
    rw [if_pos (Ne.symm hne)]
  · intro g st2 h
    rw [putFragment] at h
    simp only [falsyS_some_eq_false howner, Bool.false_eq_true, if_false,
      isEmpty_eq_false_of_ne hfid, Option.getD_some] at h
    cases hemp : (jsTrim ct).isEmpty with
    | true =>
      simp only [hemp, if_true] at h
      cases h
    | false =>
      simp only [hemp, Bool.false_eq_true, if_false] at h
      cases hp : parseContentType (jsTrim ct) with
      | none =>
        rw [hp] at h
        cases h
      | some m =>
        rw [hp] at h
        simp only [list_isEmpty_eq_false hb, Bool.false_eq_true, if_false] at h
        rw [fragmentById, hfound] at h
        dsimp only at h
        by_cases hmt : mimeTypeOf f.type ≠ m
        · rw [if_pos hmt] at h
          cases h
        · rw [if_neg hmt] at h
          have hmt' : mimeTypeOf f.type = m := not_ne_iff.mp hmt
          injection h with h1 h2
          injection h1 with h1
          constructor
          · rw [← h1]
            simp only [fragmentSetData, fragmentSave]
            by_cases hct : ct ≠ f.type
            · simp [hct]
            · simp only [hct, if_false, ite_false]
              have : ct = f.type := not_ne_iff.mp hct
              simp [this]
          · exact congrArg some hmt'.symm

theorem c4_update_type_stability_witness :
    (putFragment
      { metadata := [(("o1", "f1"),
          { id := "f1", ownerId := "o1", type := "text/plain", size := 1,
            created := "t0", updated := "t0" })]
        content := [(("o1", "f1"), [104])] }
      (some "o1") "f1" (some "text/html") (some [104]) "t2" =
      (.error .typeMismatch,
        { metadata := [(("o1", "f1"),
            { id := "f1", ownerId := "o1", type := "text/plain", size := 1,
              created := "t0", updated := "t0" })]
          content := [(("o1", "f1"), [104])] })) ∧
    (({ id := "f1", ownerId := "o1", type := "text/plain; charset=utf-8", size := 2,
        created := "t0", updated := "t2" } : Fragment).type =
          "text/plain; charset=utf-8" ∧
      parseContentType (jsTrim "text/plain; charset=utf-8") = some "text/plain") := by
  have h := c4_update_type_stability
    { metadata := [(("o1", "f1"),
        { id := "f1", ownerId := "o1", type := "text/plain", size := 1,
          created := "t0", updated := "t0" })]
      content := [(("o1", "f1"), [104])] }
    "o1" "f1" "text/html" "t2" [104]
    { id := "f1", ownerId := "o1", type := "text/plain", size := 1,
      created := "t0", updated := "t0" }
    (by decide) (by decide) (by decide) (by decide)
  have h2 := c4_update_type_stability
    { metadata := [(("o1", "f1"),
        { id := "f1", ownerId := "o1", type := "text/plain", size := 1,
          created := "t0", updated := "t0" })]
      content := [(("o1", "f1"), [104])] }
    "o1" "f1" "text/plain; charset=utf-8" "t2" [104, 105]
    { id := "f1", ownerId := "o1", type := "text/plain", size := 1,
      created := "t0", updated := "t0" }
    (by decide) (by decide) (by decide) (by decide)
  exact ⟨h.1 "text/html" (by decide) (by decide),
    h2.2
      { id := "f1", ownerId := "o1", type := "text/plain; charset=utf-8", size := 2,
        created := "t0", updated := "t2" }
      { metadata := [(("o1", "f1"),
          { id := "f1", ownerId := "o1", type := "text/plain; charset=utf-8",
            size := 2, created := "t0", updated := "t2" })]
        content := [(("o1", "f1"), [104, 105])] }
      (by decide)⟩

set_option maxHeartbeats 2000000 in
/-- C5: after every successful content write — create (POST) or update
(PUT) — the metadata record stored under (ownerId, id) is the returned
fragment, and its size field equals the byte length of the content record
stored under the same key. -/
theorem c5_size_invariant :
    (∀ (st : State) (user ctHeader : Option String) (X : Bytes)
        (genId now : String) (f : Fragment) (st2 : State),
      postFragment st user ctHeader X genId now = (.ok f, st2) →
      dbGet st2.metadata (f.ownerId, f.id) = some f ∧
      (dbGet st2.content (f.ownerId, f.id)).map (fun d => (d.length : Int)) =
        some f.size) ∧
    (∀ (st : State) (user : Option String) (idParam : String)
        (ctHeader : Option String) (body : Option Bytes) (now : String)
        (f : Fragment) (st2 : State),
      putFragment st user idParam ctHeader body now = (.ok f, st2) →
      dbGet st2.metadata (f.ownerId, f.id) = some f ∧
      (dbGet st2.content (f.ownerId, f.id)).map (fun d => (d.length : Int)) =
        some f.size) := by
  constructor
  · intro st user ctH X genId now f st2 h
    rw [postFragment.eq_def] at h
    repeat' split at h
    all_goals injection h with h1 h2
    all_goals cases h1
    all_goals subst h2
    all_goals
      simp only [fragmentSetData, fragmentSave, writeFragment, writeFragmentData]
    all_goals exact ⟨dbGet_dbPut_self _ _ _, by rw [dbGet_dbPut_self]; rfl⟩
  · intro st user idParam ctH body now f st2 h
    rw [putFragment.eq_def] at h
    repeat' split at h
    all_goals injection h with h1 h2
    all_goals cases h1
    all_goals subst h2
    all_goals
      simp only [fragmentSetData, fragmentSave, writeFragment, writeFragmentData]
    all_goals exact ⟨dbGet_dbPut_self _ _ _, by rw [dbGet_dbPut_self]; rfl⟩

theorem c5_size_invariant_witness :
    dbGet
      (postFragment { metadata := [], content := [] } (some "alice")
        (some "text/plain") [104, 105] "f1" "t0").2.metadata ("alice", "f1") =
      some { id := "f1", ownerId := "alice", type := "text/plain", size := 2,
             created := "t0", updated := "t0" } ∧
    (dbGet
      (postFragment { metadata := [], content := [] } (some "alice")
        (some "text/plain") [104, 105] "f1" "t0").2.content ("alice", "f1")).map
        (fun d => (d.length : Int)) = some 2 :=
  c5_size_invariant.1 { metadata := [], content := [] } (some "alice")
    (some "text/plain") [104, 105] "f1" "t0"
    { id := "f1", ownerId := "alice", type := "text/plain", size := 2,
      created := "t0", updated := "t0" }
    (postFragment { metadata := [], content := [] } (some "alice")
      (some "text/plain") [104, 105] "f1" "t0").2
    (by decide)

/-- C6: owner isolation. With a fragment stored under ownerA and nothing
stored under (ownerB, id), ownerB's read, update and delete of that id all
answer NotFound — exactly as if the fragment did not exist — and the state
is untouched. Moreover no mutation by a caller ever touches a key of
another owner: delete only removes the caller's key, and update (given that
the caller's stored record carries its own ownerId, which every record
written by the handlers does) only writes under the caller's ownerId. -/
theorem c6_owner_isolation (libs : ExtLibs) (st : State)
    (ownerA ownerB fid m ct : String) (f : Fragment) (b : Bytes) (now : String)
    (hA : readFragment st ownerA fid = some f)
    (hB : readFragment st ownerB fid = none)
    (hBne : ownerB ≠ "") (hfid : fid ≠ "")
    (hdot : ∀ c ∈ fid.data, c ≠ '.')
    (hb : b ≠ [])
    (hctp : parseContentType (jsTrim ct) = some m) :
    getFragmentById libs st (some ownerB) fid = .error .notFound ∧
    putFragment st (some ownerB) fid (some ct) (some b) now =
      (.error .notFound, st) ∧
    deleteFragmentRoute st (some ownerB) fid = (.error .notFound, st) ∧
    (∀ (fid2 : String) (r : Except ApiErr Unit) (st2 : State),
      deleteFragmentRoute st (some ownerB) fid2 = (r, st2) →
      ∀ k : Key, k.1 ≠ ownerB →
        dbGet st2.metadata k = dbGet st.metadata k ∧
        dbGet st2.content k = dbGet st.content k) ∧
    (∀ (idParam ct2 : String) (b2 : Bytes) (r : Except ApiErr Fragment)
        (st2 : State),
      (∀ g, readFragment st ownerB idParam = some g → g.ownerId = ownerB) →
      putFragment st (some ownerB) idParam (some ct2) (some b2) now = (r, st2) →
      ∀ k : Key, k.1 ≠ ownerB →
        dbGet st2.metadata k = dbGet st.metadata k ∧
        dbGet st2.content k = dbGet st.content k) := by
  refine ⟨?_, ?_, ?_, ?_, ?_⟩
  · rw [getFragmentById]
    simp only [falsyS_some_eq_false hBne, Bool.false_eq_true, if_false,
      Option.getD_some]
    rw [parseFragmentId_no_dot fid hdot]
    simp only [isEmpty_eq_false_of_ne hfid, Bool.false_eq_true, if_false]
    rw [fragmentById, hB]
  · rw [putFragment]
    simp only [falsyS_some_eq_false hBne, Bool.false_eq_true, if_false,
      isEmpty_eq_false_of_ne hfid, Option.getD_some]
    simp only [jsTrim_nonempty_of_parse hctp, Bool.false_eq_true, if_false]
    rw [hctp]
    simp only [list_isEmpty_eq_false hb, Bool.false_eq_true, if_false]
    rw [fragmentById, hB]
  · rw [deleteFragmentRoute]
    simp only [falsyS_some_eq_false hBne, Bool.false_eq_true, if_false,
      isEmpty_eq_false_of_ne hfid, Option.getD_some]
    rw [fragmentById, hB]
  · intro fid2 r st2 h k hk
    have hkne : ∀ x : String, k ≠ (ownerB, x) := fun x hc => hk (by rw [hc])
    rw [deleteFragmentRoute] at h
    simp only [falsyS_some_eq_false hBne, Bool.false_eq_true, if_false,
      Option.getD_some] at h
    by_cases hf2 : fid2.isEmpty = true
    · rw [if_pos hf2] at h
      injection h with h1 h2
      subst h2
      exact ⟨rfl, rfl⟩
    · rw [if_neg hf2] at h
      cases hby : readFragment st ownerB fid2 with
      | none =>
        rw [fragmentById, hby] at h
        dsimp only at h
        injection h with h1 h2
        subst h2
        exact ⟨rfl, rfl⟩
      | some g =>
        rw [fragmentById, hby] at h
        dsimp only at h
        rw [deleteFragmentBoth] at h
        by_cases hdel : (dbGet st.metadata (ownerB, fid2)).isSome ∧
            (dbGet st.content (ownerB, fid2)).isSome
        · rw [if_pos hdel] at h
          dsimp only at h
          injection h with h1 h2
          subst h2
          exact ⟨dbGet_dbDel_ne _ _ _ (hkne fid2), dbGet_dbDel_ne _ _ _ (hkne fid2)⟩
        · rw [if_neg hdel] at h
          dsimp only at h
          injection h with h1 h2
          subst h2
          exact ⟨rfl, rfl⟩
  · intro idParam ct2 b2 r st2 hwf h k hk
    rw [putFragment] at h
    simp only [falsyS_some_eq_false hBne, Bool.false_eq_true, if_false,
      Option.getD_some] at h
    by_cases hi : idParam.isEmpty = true
    · rw [if_pos hi] at h
      injection h with h1 h2
      subst h2
      exact ⟨rfl, rfl⟩
    · rw [if_neg hi] at h
      by_cases hce : (jsTrim ct2).isEmpty = true
      · rw [if_pos hce] at h
        injection h with h1 h2
        subst h2
        exact ⟨rfl, rfl⟩
      · rw [if_neg hce] at h
        cases hcp : parseContentType (jsTrim ct2) with
        | none =>
          rw [hcp] at h
          injection h with h1 h2
          subst h2
          exact ⟨rfl, rfl⟩
        | some m2 =>
          rw [hcp] at h
          dsimp only at h
          by_cases hbe : b2.isEmpty = true
          · rw [if_pos hbe] at h
            injection h with h1 h2
            subst h2
            exact ⟨rfl, rfl⟩
          · rw [if_neg hbe] at h
            cases hby : readFragment st ownerB idParam with
            | none =>
              rw [fragmentById, hby] at h
              dsimp only at h
              injection h with h1 h2
              subst h2
              exact ⟨rfl, rfl⟩
            | some g =>
              rw [fragmentById, hby] at h
              dsimp only at h
              by_cases hmt : mimeTypeOf g.type ≠ m2
              · rw [if_pos hmt] at h
                injection h with h1 h2
                subst h2
                exact ⟨rfl, rfl⟩
              · rw [if_neg hmt] at h
                injection h with h1 h2
                subst h2
                have hown : (if ct2 ≠ g.type then { g with type := ct2 } else g).ownerId =
                    ownerB := by
                  by_cases hcc : ct2 ≠ g.type
                  · rw [if_pos hcc]
                    exact hwf g hby
                  · rw [if_neg hcc]
                    exact hwf g hby
                simp only [fragmentSetData, fragmentSave, writeFragment,
                  writeFragmentData]
                constructor
                · rw [dbGet_dbPut_ne]
                  rw [hown]
                  intro hc
                  exact hk (by rw [hc])
                · rw [dbGet_dbPut_ne]
                  rw [hown]
                  intro hc
                  exact hk (by rw [hc])

theorem c6_owner_isolation_witness :
    getFragmentById noLibs
      { metadata := [(("ownerA", "f1"),
          { id := "f1", ownerId := "ownerA", type := "text/plain", size := 1,
            created := "t0", updated := "t0" })]
        content := [(("ownerA", "f1"), [104])] }
      (some "bob") "f1" = .error .notFound ∧
    putFragment
      { metadata := [(("ownerA", "f1"),
          { id := "f1", ownerId := "ownerA", type := "text/plain", size := 1,
            created := "t0", updated := "t0" })]
        content := [(("ownerA", "f1"), [104])] }
      (some "bob") "f1" (some "text/plain") (some [105]) "t2" =
      (.error .notFound,
        { metadata := [(("ownerA", "f1"),
            { id := "f1", ownerId := "ownerA", type := "text/plain", size := 1,
              created := "t0", updated := "t0" })]
          content := [(("ownerA", "f1"), [104])] }) ∧
    deleteFragmentRoute
      { metadata := [(("ownerA", "f1"),
          { id := "f1", ownerId := "ownerA", type := "text/plain", size := 1,
            created := "t0", updated := "t0" })]
        content := [(("ownerA", "f1"), [104])] }
      (some "bob") "f1" =
      (.error .notFound,
        { metadata := [(("ownerA", "f1"),
            { id := "f1", ownerId := "ownerA", type := "text/plain", size := 1,
              created := "t0", updated := "t0" })]
          content := [(("ownerA", "f1"), [104])] }) := by
  have h := c6_owner_isolation noLibs
    { metadata := [(("ownerA", "f1"),
        { id := "f1", ownerId := "ownerA", type := "text/plain", size := 1,
          created := "t0", updated := "t0" })]
      content := [(("ownerA", "f1"), [104])] }
    "ownerA" "bob" "f1" "text/plain" "text/plain"
    { id := "f1", ownerId := "ownerA", type := "text/plain", size := 1,
      created := "t0", updated := "t0" }
    [105] "t2"
    (by decide) (by decide) (by decide) (by decide) (by decide) (by decide)
    (by decide)
  exact ⟨h.1, h.2.1, h.2.2.1⟩

end Fragments
